import Mathlib

/-!
Verification development for the versioned deployment orchestrator
(`src/lambda-deployer.ts`).

The orchestrator is embedded shallowly: every external AWS call
(Lambda registry, alias directory, EventBridge scheduler, CloudWatch
metrics sink) becomes an explicit step in a state-and-trace monad `M`.
A `World` carries

  * `store`   — per-function registry state (aliases, environment map,
                published versions),
  * `oracle`  — for each external-call index, whether the collaborator
                accepts the call (failure injection; a call can also fail
                for a semantic reason such as `GetAlias` on a missing
                alias, mirroring the service's not-found errors),
  * `tick`    — wall-clock advance accrued by each external call,
  * `time`    — the current clock (`Date.now()`),
  * `calls`   — index of the next external call,
  * `trace`   — the list of external effects issued so far,
  * `accountId`/`stsAccount`/`region` — the deployer's cached account
                id field, the identity STS would report, and the region.

TypeScript numbers that participate in arithmetic (traffic percentages,
durations, thresholds) are embedded as exact rationals `Rat`; the
artifact `Buffer` is represented by its byte length, the only attribute
the orchestrator ever inspects.
-/

/-- Registry-side state of one deployable unit: its aliases
(name ↦ version), its environment-variable map, and the list of
published version ids, in creation order. -/
structure FnState where
  aliases : List (String × String) := []
  env : List (String × String) := []
  versions : List String := []
deriving Repr, DecidableEq

/-- One external effect, as issued by the orchestrator.  Each
constructor mirrors one AWS SDK command (plus `sleep` for the
promotion-retry backoff). -/
inductive Event where
  | updateFunctionCode (fn : String) (size : Nat)
  | updateFunctionConfiguration (fn : String)
      (env : Option (List (String × String))) (timeout memorySize : Option Nat)
  | publishVersion (fn : String) (descr : String)
  | getAlias (fn name : String)
  | updateAlias (fn name version : String)
  | createAlias (fn name version : String)
  | listVersions (fn : String)
  | putMetricData (ns fn : String) (deploymentTime size : Nat)
  | putRule (name expr : String)
  | putTargets (rule arn input : String)
  | getCallerIdentity
  | sleep (ms : Nat)
deriving Repr, DecidableEq

/-- The whole world: registry store, failure oracle, clock, call
counter, effect trace, and the deployer's own mutable fields. -/
structure World where
  store : String → FnState
  oracle : Nat → Bool
  tick : Nat → Nat
  time : Nat := 0
  calls : Nat := 0
  trace : List Event := []
  accountId : String := "auto-detect"
  stsAccount : String := "123456789012"
  region : String := "us-east-1"

deriving instance DecidableEq for Except

/-- State-and-trace monad with exceptions: the state survives a throw
(matching JavaScript, where effects performed before a `throw` are not
rolled back). -/
def M (α : Type) : Type := World → Except String α × World

def M.pure {α : Type} (a : α) : M α := fun w => (Except.ok a, w)

def M.bind {α β : Type} (x : M α) (f : α → M β) : M β := fun w =>
  match x w with
  | (.ok a, w') => f a w'
  | (.error e, w') => (.error e, w')

instance : Monad M where
  pure := M.pure
  bind := M.bind

/-- `try { x } catch (e) { h e }`. -/
def M.tryCatch {α : Type} (x : M α) (h : String → M α) : M α := fun w =>
  match x w with
  | (.ok a, w') => (.ok a, w')
  | (.error e, w') => h e w'

/-- `throw new Error e`. -/
def throwM {α : Type} (e : String) : M α := fun w => (Except.error e, w)

/-- Lift a pure fallible computation (local validation) into `M`. -/
def ofExcept {α : Type} (x : Except String α) : M α := fun w => (x, w)

/-- `Date.now()`. -/
def now : M Nat := fun w => (.ok w.time, w)

/-- `await new Promise(resolve => setTimeout(resolve, ms))`. -/
def sleepM (ms : Nat) : M Unit := fun w =>
  (.ok (), { w with trace := w.trace ++ [.sleep ms], time := w.time + ms })

/-- Read of the deployer's cached `this.accountId` field. -/
def readAccountId : M String := fun w => (.ok w.accountId, w)

/-- Write of the deployer's cached `this.accountId` field. -/
def writeAccountId (a : String) : M Unit := fun w =>
  (.ok (), { w with accountId := a })

/-- Read of the deployer's `this.region` field. -/
def readRegion : M String := fun w => (.ok w.region, w)

/-- Bookkeeping every external call performs: append the event to the
trace, advance the clock by this call's tick, step the call counter. -/
def recordCall (w : World) (ev : Event) : World :=
  { w with trace := w.trace ++ [ev], calls := w.calls + 1,
           time := w.time + w.tick w.calls }

/-- One external call: it is accepted when the oracle grants this call
index and the semantic precondition `pre` holds; on acceptance it
returns `res` of the pre-state and applies `upd` to the recorded
post-state, otherwise it raises `err`.  The event is traced either
way (the request was issued). -/
def extCall {α : Type} (ev : Event) (pre : World → Bool) (res : World → α)
    (upd : World → World) (err : String) : M α := fun w =>
  if w.oracle w.calls && pre w then (.ok (res w), upd (recordCall w ev))
  else (.error err, recordCall w ev)

/-- Registry state of one function (a function never seen behaves as a
fresh empty state). -/
def World.fnState (w : World) (fn : String) : FnState := w.store fn

def World.setFnState (w : World) (fn : String) (s : FnState) : World :=
  { w with store := fun g => if g = fn then s else w.store g }

/-- First-match lookup in an association list. -/
def lookupStr (l : List (String × String)) (n : String) : Option String :=
  match l with
  | [] => none
  | (k, v) :: t => if n = k then some v else lookupStr t n

/-- Version the alias of this name resolves to, if the alias exists. -/
def aliasLookup (w : World) (fn name : String) : Option String :=
  lookupStr ((w.fnState fn).aliases) name

/-- In-place update of every alias entry with this name. -/
def setAliasList (l : List (String × String)) (name v : String) :
    List (String × String) :=
  l.map fun p => if p.1 = name then (name, v) else p

/- ### The external collaborators (one definition per SDK command) -/

def send_UpdateFunctionCode (fn : String) (size : Nat) : M Unit :=
  extCall (.updateFunctionCode fn size) (fun _ => true) (fun _ => ()) id
    "UpdateFunctionCode failed"

/-- `UpdateFunctionConfiguration`: supplying `Environment` replaces the
function's whole variable map (AWS semantics: the submitted variables
become the configuration, they are not merged into the old map). -/
def send_UpdateFunctionConfiguration (fn : String)
    (env : Option (List (String × String))) (timeout memorySize : Option Nat) :
    M Unit :=
  extCall (.updateFunctionConfiguration fn env timeout memorySize)
    (fun _ => true) (fun _ => ())
    (fun w => match env with
      | some vars => w.setFnState fn { w.fnState fn with env := vars }
      | none => w)
    "UpdateFunctionConfiguration failed"

/-- `PublishVersion`: issues the next monotone version id. -/
def send_PublishVersion (fn : String) (descr : String) : M String :=
  extCall (.publishVersion fn descr) (fun _ => true)
    (fun w => toString ((w.fnState fn).versions.length + 1))
    (fun w => w.setFnState fn
      { w.fnState fn with versions :=
          (w.fnState fn).versions ++ [toString ((w.fnState fn).versions.length + 1)] })
    "PublishVersion failed"

/-- `GetAlias`: fails (not-found) when the alias does not exist. -/
def send_GetAlias (fn name : String) : M String :=
  extCall (.getAlias fn name) (fun w => (aliasLookup w fn name).isSome)
    (fun w => (aliasLookup w fn name).getD "") id
    "GetAlias failed: alias not found"

/-- `UpdateAlias`: fails when the alias does not exist. -/
def send_UpdateAlias (fn name v : String) : M Unit :=
  extCall (.updateAlias fn name v) (fun w => (aliasLookup w fn name).isSome)
    (fun _ => ())
    (fun w => w.setFnState fn
      { w.fnState fn with aliases := setAliasList (w.fnState fn).aliases name v })
    "UpdateAlias failed"

/-- `CreateAlias`: fails when an alias of this name already exists. -/
def send_CreateAlias (fn name v : String) : M Unit :=
  extCall (.createAlias fn name v) (fun w => (aliasLookup w fn name).isNone)
    (fun _ => ())
    (fun w => w.setFnState fn
      { w.fnState fn with aliases := (w.fnState fn).aliases ++ [(name, v)] })
    "CreateAlias failed: alias already exists"

/-- `ListVersionsByFunction`: the published versions, creation order. -/
def send_ListVersions (fn : String) : M (List String) :=
  extCall (.listVersions fn) (fun _ => true) (fun w => (w.fnState fn).versions)
    id "ListVersionsByFunction failed"

def send_PutMetricData (ns fn : String) (dt size : Nat) : M Unit :=
  extCall (.putMetricData ns fn dt size) (fun _ => true) (fun _ => ()) id
    "PutMetricData failed"

def send_PutRule (name expr : String) : M Unit :=
  extCall (.putRule name expr) (fun _ => true) (fun _ => ()) id
    "PutRule failed"

def send_PutTargets (rule arn input : String) : M Unit :=
  extCall (.putTargets rule arn input) (fun _ => true) (fun _ => ()) id
    "PutTargets failed"

/-- STS `GetCallerIdentity`; the account it reports is `w.stsAccount`
(`response.Account || ''`). -/
def send_GetCallerIdentity : M String :=
  extCall .getCallerIdentity (fun _ => true) (fun w => w.stsAccount) id
    "GetCallerIdentity failed"

/- ### Data shapes of the orchestrator (`lambda-deployer.ts` interfaces) -/

/-- `DeploymentConfig`; the artifact `Buffer` is carried as its byte
length `codeSize`, the only attribute the orchestrator reads.  The
source interface also declares an optional `version` field, which no
method ever reads; it is omitted. -/
structure DeploymentConfig where
  functionName : String
  codeSize : Nat
  description : Option String := none
  environment : Option (List (String × String)) := none
  timeout : Option Nat := none
  memorySize : Option Nat := none
deriving Repr, DecidableEq

structure DeploymentMetrics where
  deploymentTime : Nat
  functionSize : Nat
deriving Repr, DecidableEq

structure DeploymentResult where
  success : Bool
  version : Option String := none
  «alias» : Option String := none
  error : Option String := none
  metrics : Option DeploymentMetrics := none
deriving Repr, DecidableEq

structure EvaluationCriteria where
  errorRate : Rat
  latency : Rat
deriving Repr, DecidableEq

structure CanaryConfig where
  functionName : String
  trafficPercent : Rat
  duration : Rat
  evaluationCriteria : EvaluationCriteria
deriving Repr, DecidableEq

structure DeploymentHistory where
  versions : List String
  currentVersion : String
  liveVersion : String
deriving Repr, DecidableEq

/- ### Pure helpers -/

/-- Stands in for `new Date(t).toISOString()`: an injective rendering
of the clock value. -/
def isoTimestamp (t : Nat) : String := toString t

/-- A character the `^[a-zA-Z0-9-_]+$` pattern accepts. -/
def isValidFnChar (c : Char) : Bool := c.isAlphanum || c = '-' || c = '_'

/-- `validateFunctionName` (pure part): `!functionName ||
!/^[a-zA-Z0-9-_]+$/.test(functionName)` then the length bound. -/
def validateFunctionNameE (functionName : String) : Except String Unit :=
  if functionName = "" ∨ ¬ (functionName.data.all isValidFnChar) then
    .error "Function name must contain only alphanumeric characters, hyphens, and underscores"
  else if 64 < functionName.length then
    .error "Function name must be 64 characters or less"
  else .ok ()

def validateFunctionName (functionName : String) : M Unit :=
  ofExcept (validateFunctionNameE functionName)

/-- `validateCanaryConfig` (pure part), checks in source order. -/
def validateCanaryConfigE (config : CanaryConfig) : Except String Unit :=
  if config.functionName = "" ∨ ¬ (config.functionName.data.all isValidFnChar) then
    .error "Invalid function name: must contain only alphanumeric characters, hyphens, and underscores"
  else if 64 < config.functionName.length then
    .error "Function name must be 64 characters or less"
  else if config.duration < 1 ∨ 1440 < config.duration then
    .error "Duration must be between 1 and 1440 minutes (24 hours)"
  else if config.trafficPercent < 1 ∨ 100 < config.trafficPercent then
    .error "Traffic percentage must be between 1 and 100"
  else if config.evaluationCriteria.errorRate < 0 ∨ 1 < config.evaluationCriteria.errorRate then
    .error "Error rate must be between 0 and 1"
  else if config.evaluationCriteria.latency < 0 then
    .error "Latency must be positive"
  else .ok ()

def validateCanaryConfig (config : CanaryConfig) : M Unit :=
  ofExcept (validateCanaryConfigE config)

/-- The `routingConfig.AdditionalVersionWeights` table built by
`setupTrafficShifting`. -/
structure RoutingWeights where
  canary : Rat
  live : Rat
deriving Repr, DecidableEq

def routingWeightsFor (canaryPercent : Rat) : RoutingWeights :=
  { canary := canaryPercent / 100, live := (100 - canaryPercent) / 100 }

/-- `JSON.stringify(routingConfig.AdditionalVersionWeights)`. -/
def weightsJson (canaryAlias liveAlias : String) (rw : RoutingWeights) : String :=
  "\x7b\"" ++ canaryAlias ++ "\":" ++ toString rw.canary ++ ",\"" ++
    liveAlias ++ "\":" ++ toString rw.live ++ "\x7d"

/-- The three environment variables the traffic write submits. -/
def trafficEnvVars (canaryAlias liveAlias : String) (canaryPercent : Rat) :
    List (String × String) :=
  [("TRAFFIC_WEIGHTS", weightsJson canaryAlias liveAlias (routingWeightsFor canaryPercent)),
   ("CANARY_PERCENT", toString canaryPercent),
   ("LIVE_PERCENT", toString (100 - canaryPercent))]

/-- `JSON.stringify` of the promotion payload sent to `PutTargets`. -/
def promotionPayload (fn v : String) (timestamp : Nat) : String :=
  "\x7b\"action\":\"promoteCanary\",\"functionName\":\"" ++ fn ++
    "\",\"version\":\"" ++ v ++ "\",\"timestamp\":\"" ++
    isoTimestamp timestamp ++ "\"\x7d"

/- ### The orchestrator methods -/

/-- `trackDeploymentMetrics`: fire-and-forget metric emission, failures
swallowed by the empty catch. -/
def trackDeploymentMetrics (fn : String) (dt size : Nat) : M Unit :=
  M.tryCatch (send_PutMetricData "AWS/Lambda/Deployment" fn dt size)
    (fun _ => Pure.pure ())

/-- `deployWithVersioning`. -/
def deployWithVersioning (config : DeploymentConfig) : M DeploymentResult := do
  let startTime ← now
  M.tryCatch
    (do
      validateFunctionName config.functionName
      if config.codeSize = 0 then
        throwM "Function code cannot be empty"
      else Pure.pure ()
      if 50 * 1024 * 1024 < config.codeSize then
        throwM "Function code size exceeds 50MB limit"
      else Pure.pure ()
      send_UpdateFunctionCode config.functionName config.codeSize
      -- `config.environment || config.timeout || config.memorySize`
      -- (JavaScript truthiness: a numeric 0 is falsy)
      if config.environment.isSome ∨ config.timeout.getD 0 ≠ 0 ∨
          config.memorySize.getD 0 ≠ 0 then
        send_UpdateFunctionConfiguration config.functionName config.environment
          config.timeout config.memorySize
      else Pure.pure ()
      let t1 ← now
      let version ← send_PublishVersion config.functionName
        (config.description.getD ("Deployment at " ++ isoTimestamp t1))
      let t2 ← now
      let deploymentTime := t2 - startTime
      trackDeploymentMetrics config.functionName deploymentTime config.codeSize
      Pure.pure { success := true, version := some version,
                  metrics := some { deploymentTime := deploymentTime,
                                    functionSize := config.codeSize } })
    (fun e => Pure.pure { success := false, error := some e })

/-- The inline alias block of `blueGreenDeploy` (read the alias and
update it inside one `try`; on any failure of that block, create it). -/
def upsertAliasGetFirst (fn name v : String) : M Unit :=
  M.tryCatch
    (do
      let _ ← send_GetAlias fn name
      send_UpdateAlias fn name v)
    (fun _ => send_CreateAlias fn name v)

/-- The inline alias block of `canaryDeploy` (try the update; on any
failure, create). -/
def upsertAliasUpdateFirst (fn name v : String) : M Unit :=
  M.tryCatch (send_UpdateAlias fn name v)
    (fun _ => send_CreateAlias fn name v)

/-- `blueGreenDeploy`. -/
def blueGreenDeploy (config : DeploymentConfig) : M DeploymentResult :=
  M.tryCatch
    (do
      validateFunctionName config.functionName
      let deployment ← deployWithVersioning config
      if deployment.success = false ∨ deployment.version.getD "" = "" then
        Pure.pure deployment
      else do
        upsertAliasGetFirst config.functionName "live" (deployment.version.getD "")
        Pure.pure { deployment with «alias» := some "live" })
    (fun e => Pure.pure { success := false, error := some e })

/-- `setupTrafficShifting`: one configuration write carrying the whole
weight table; failures swallowed by the empty catch. -/
def setupTrafficShifting (functionName liveAlias canaryAlias : String)
    (canaryPercent : Rat) : M Unit :=
  M.tryCatch
    (send_UpdateFunctionConfiguration functionName
      (some (trafficEnvVars canaryAlias liveAlias canaryPercent)) none none)
    (fun _ => Pure.pure ())

/-- `getAccountId`: cached auto-detection through STS; a blank account
is an error; failures are rethrown wrapped. -/
def getAccountId : M String := do
  let cached ← readAccountId
  if cached = "auto-detect" then
    M.tryCatch
      (do
        let acct ← send_GetCallerIdentity
        writeAccountId acct
        if acct = "" then throwM "Unable to determine AWS account ID"
        else Pure.pure ())
      (fun e => throwM ("Failed to get AWS account ID: " ++ e))
  else Pure.pure ()
  readAccountId

/-- `scheduleCanaryPromotion`: registers the promotion timer; the whole
body is wrapped in a silent catch. -/
def scheduleCanaryPromotion (functionName version : String)
    (durationMinutes : Rat) : M Unit :=
  M.tryCatch
    (do
      let accountId ← getAccountId
      if accountId = "" then throwM "Unable to determine AWS account ID"
      else Pure.pure ()
      let t ← now
      let region ← readRegion
      let ruleName := functionName ++ "-canary-promotion-" ++ toString t
      let targetArn := "arn:aws:lambda:" ++ region ++
        ":" ++ accountId ++ ":function:" ++ functionName
      send_PutRule ruleName ("rate(" ++ toString durationMinutes ++ " minutes)")
      send_PutTargets ruleName targetArn (promotionPayload functionName version t))
    (fun _ => Pure.pure ())

/-- `canaryDeploy`. -/
def canaryDeploy (config : CanaryConfig) (codeSize : Nat) : M DeploymentResult :=
  M.tryCatch
    (do
      validateCanaryConfig config
      let t ← now
      let deployment ← deployWithVersioning
        { functionName := config.functionName, codeSize := codeSize,
          description := some ("Canary deployment - " ++ isoTimestamp t) }
      if deployment.success = false ∨ deployment.version.getD "" = "" then
        Pure.pure deployment
      else do
        let newVersion := deployment.version.getD ""
        upsertAliasUpdateFirst config.functionName "canary" newVersion
        setupTrafficShifting config.functionName "live" "canary" config.trafficPercent
        scheduleCanaryPromotion config.functionName newVersion config.duration
        Pure.pure { deployment with «alias» := some "canary" })
    (fun e => Pure.pure { success := false, error := some e })

/-- `rollbackToVersion`. -/
def rollbackToVersion (functionName targetVersion : String) : M DeploymentResult :=
  M.tryCatch
    (do
      validateFunctionName functionName
      if targetVersion = "" ∨ ¬ (targetVersion.data.all Char.isDigit) then
        throwM "Invalid target version: must be a positive integer"
      else Pure.pure ()
      send_UpdateAlias functionName "live" targetVersion
      Pure.pure { success := true, version := some targetVersion,
                  «alias» := some "live" })
    (fun e => Pure.pure { success := false, error := some e })

/-- `getDeploymentHistory` (this one rethrows on failure). -/
def getDeploymentHistory (functionName : String) : M DeploymentHistory :=
  M.tryCatch
    (do
      validateFunctionName functionName
      let versions ← send_ListVersions functionName
      let liveVersion ← M.tryCatch (send_GetAlias functionName "live")
        (fun _ => Pure.pure (versions.getLast?.getD ""))
      Pure.pure { versions := versions,
                  currentVersion := versions.getLast?.getD "",
                  liveVersion := liveVersion })
    (fun e => throwM ("Failed to get deployment history: " ++ e))

/-- The retry loop of `promoteCanary`: `remaining` is the number of
loop iterations `maxRetries - attempt` still permitted by the
`while (attempt < maxRetries)` guard. -/
def promoteCanaryGo (fn v : String) : Nat → Nat → M Unit
  | 0, _ => Pure.pure ()
  | remaining + 1, attempt =>
    M.tryCatch
      (send_UpdateAlias fn "live" v)
      (fun _ =>
        if attempt + 1 ≥ 3 then
          throwM "Canary promotion failed after 3 attempts"
        else do
          sleepM ((attempt + 1) * 2000)
          promoteCanaryGo fn v remaining (attempt + 1))

/-- `promoteCanary`: up to 3 alias-update attempts with linear backoff
`attempt * 2000ms`; exhaustion raises the promotion-failed error. -/
def promoteCanary (functionName version : String) : M Unit :=
  promoteCanaryGo functionName version 3 0

/- ### Run lemmas for the monad -/

theorem run_pure {α : Type} (a : α) (w : World) : (Pure.pure a : M α) w = (.ok a, w) := rfl

theorem run_bind {α β : Type} (x : M α) (f : α → M β) (w : World) :
    (x >>= f) w =
      (match x w with
       | (.ok a, w') => f a w'
       | (.error e, w') => (.error e, w')) := rfl

theorem run_tryCatch {α : Type} (x : M α) (h : String → M α) (w : World) :
    M.tryCatch x h w =
      (match x w with
       | (.ok a, w') => (.ok a, w')
       | (.error e, w') => h e w') := rfl

theorem run_throwM {α : Type} (e : String) (w : World) : (throwM e : M α) w = (.error e, w) := rfl

theorem run_ofExcept {α : Type} (x : Except String α) (w : World) : ofExcept x w = (x, w) := rfl

theorem run_now (w : World) : now w = (.ok w.time, w) := rfl

theorem run_extCall {α : Type} (ev : Event) (pre : World → Bool) (res : World → α)
    (upd : World → World) (err : String) (w : World) :
    extCall ev pre res upd err w =
      (if w.oracle w.calls && pre w then (.ok (res w), upd (recordCall w ev))
       else (.error err, recordCall w ev)) := rfl

/- ### Association-list lemmas for the alias directory -/

theorem setAliasList_cons (k u n v : String) (t : List (String × String)) :
    setAliasList ((k, u) :: t) n v =
      (if k = n then (n, v) else (k, u)) :: setAliasList t n v := rfl

theorem lookup_setAliasList_self (l : List (String × String)) (n v : String)
    (h : (lookupStr l n).isSome) : lookupStr (setAliasList l n v) n = some v := by
  induction l with
  | nil => simp [lookupStr] at h
  | cons p t ih =>
    rcases p with ⟨k, u⟩
    by_cases hk : k = n
    · subst hk
      rw [setAliasList_cons, if_pos rfl]
      simp [lookupStr]
    · have hnk : ¬ (n = k) := fun hc => hk hc.symm
      rw [setAliasList_cons, if_neg hk]
      simp only [lookupStr, if_neg hnk] at h ⊢
      exact ih h

theorem lookup_setAliasList_ne (l : List (String × String)) (n v a : String)
    (h : a ≠ n) : lookupStr (setAliasList l n v) a = lookupStr l a := by
  induction l with
  | nil => simp [setAliasList, lookupStr]
  | cons p t ih =>
    rcases p with ⟨k, u⟩
    by_cases hk : k = n
    · subst hk
      rw [setAliasList_cons, if_pos rfl]
      simp only [lookupStr, if_neg h]
      exact ih
    · rw [setAliasList_cons, if_neg hk]
      by_cases ha : a = k
      · simp [lookupStr, ha]
      · simp only [lookupStr, if_neg ha]
        exact ih

/-- The alias entries of one name (used to state "exactly one alias of
that name exists"). -/
def aliasEntries (l : List (String × String)) (n : String) : List (String × String) :=
  match l with
  | [] => []
  | (k, v) :: t => if k = n then (k, v) :: aliasEntries t n else aliasEntries t n

theorem aliasEntries_setAliasList (l : List (String × String)) (n v : String) :
    aliasEntries (setAliasList l n v) n = (aliasEntries l n).map (fun _ => (n, v)) := by
  induction l with
  | nil => simp [aliasEntries, setAliasList]
  | cons p t ih =>
    rcases p with ⟨k, u⟩
    by_cases hk : k = n
    · subst hk
      rw [setAliasList_cons, if_pos rfl]
      simp only [aliasEntries, if_pos rfl, List.map]
      rw [ih]
      simp
    · rw [setAliasList_cons, if_neg hk]
      simp only [aliasEntries, if_neg hk]
      exact ih

theorem aliasEntries_append (l m : List (String × String)) (n : String) :
    aliasEntries (l ++ m) n = aliasEntries l n ++ aliasEntries m n := by
  induction l with
  | nil => simp [aliasEntries]
  | cons p t ih =>
    rcases p with ⟨k, u⟩
    by_cases hk : k = n
    · simp [aliasEntries, if_pos hk, ih]
    · simp [aliasEntries, if_neg hk, ih]

theorem aliasEntries_nil_of_lookup_none (l : List (String × String)) (n : String)
    (h : lookupStr l n = none) : aliasEntries l n = [] := by
  induction l with
  | nil => simp [aliasEntries]
  | cons p t ih =>
    rcases p with ⟨k, u⟩
    by_cases hk : n = k
    · subst hk; simp [lookupStr] at h
    · have hk' : ¬ (k = n) := fun hc => hk hc.symm
      simp only [lookupStr, if_neg hk] at h
      simp only [aliasEntries, if_neg hk']
      exact ih h

theorem aliasEntries_ne_nil_of_lookup_isSome (l : List (String × String)) (n : String)
    (h : (lookupStr l n).isSome) : aliasEntries l n ≠ [] := by
  induction l with
  | nil => simp [lookupStr] at h
  | cons p t ih =>
    rcases p with ⟨k, u⟩
    by_cases hk : n = k
    · subst hk
      simp [aliasEntries, if_pos rfl]
    · have hk' : ¬ (k = n) := fun hc => hk hc.symm
      simp only [lookupStr, if_neg hk] at h
      simp only [aliasEntries, if_neg hk']
      exact ih h

/- ### Trace framework: which events a computation may emit -/

/-- `EmitsOnly x P`: in every world, running `x` appends to the trace
only events satisfying `P`. -/
def EmitsOnly {α : Type} (x : M α) (P : Event → Prop) : Prop :=
  ∀ w : World, ∃ ext, ((x w).2).trace = w.trace ++ ext ∧ ∀ e ∈ ext, P e

theorem emitsOnly_of_trace_id {α : Type} {x : M α} (P : Event → Prop)
    (h : ∀ w : World, ((x w).2).trace = w.trace) : EmitsOnly x P := by
  intro w
  refine ⟨[], ?_, ?_⟩
  · rw [h w, List.append_nil]
  · intro e he
    cases he

theorem emitsOnly_pure {α : Type} (a : α) (P : Event → Prop) :
    EmitsOnly (Pure.pure a : M α) P :=
  emitsOnly_of_trace_id P (fun _ => rfl)

theorem emitsOnly_throwM {α : Type} (e : String) (P : Event → Prop) :
    EmitsOnly (throwM e : M α) P :=
  emitsOnly_of_trace_id P (fun _ => rfl)

theorem emitsOnly_ofExcept {α : Type} (x : Except String α) (P : Event → Prop) :
    EmitsOnly (ofExcept x) P :=
  emitsOnly_of_trace_id P (fun _ => rfl)

theorem emitsOnly_now (P : Event → Prop) : EmitsOnly now P :=
  emitsOnly_of_trace_id P (fun _ => rfl)

theorem emitsOnly_readAccountId (P : Event → Prop) : EmitsOnly readAccountId P :=
  emitsOnly_of_trace_id P (fun _ => rfl)

theorem emitsOnly_writeAccountId (a : String) (P : Event → Prop) :
    EmitsOnly (writeAccountId a) P :=
  emitsOnly_of_trace_id P (fun _ => rfl)

theorem emitsOnly_readRegion (P : Event → Prop) : EmitsOnly readRegion P :=
  emitsOnly_of_trace_id P (fun _ => rfl)

theorem emitsOnly_sleepM (ms : Nat) (P : Event → Prop) (h : P (.sleep ms)) :
    EmitsOnly (sleepM ms) P := by
  intro w
  refine ⟨[.sleep ms], rfl, ?_⟩
  intro e he
  rw [List.mem_singleton.mp he]
  exact h

theorem emitsOnly_bind {α β : Type} {x : M α} {f : α → M β} {P : Event → Prop}
    (hx : EmitsOnly x P) (hf : ∀ a, EmitsOnly (f a) P) : EmitsOnly (x >>= f) P := by
  intro w
  obtain ⟨e1, he1, hp1⟩ := hx w
  rcases hxw : x w with ⟨r, w1⟩
  rw [hxw] at he1
  cases r with
  | ok a =>
    obtain ⟨e2, he2, hp2⟩ := hf a w1
    refine ⟨e1 ++ e2, ?_, ?_⟩
    · rw [run_bind, hxw]
      show ((f a w1).2).trace = _
      rw [he2, he1, List.append_assoc]
    · intro e he
      rcases List.mem_append.mp he with h | h
      · exact hp1 e h
      · exact hp2 e h
  | error err =>
    refine ⟨e1, ?_, hp1⟩
    rw [run_bind, hxw]
    exact he1

theorem emitsOnly_tryCatch {α : Type} {x : M α} {h : String → M α} {P : Event → Prop}
    (hx : EmitsOnly x P) (hh : ∀ e, EmitsOnly (h e) P) : EmitsOnly (M.tryCatch x h) P := by
  intro w
  obtain ⟨e1, he1, hp1⟩ := hx w
  rcases hxw : x w with ⟨r, w1⟩
  rw [hxw] at he1
  cases r with
  | ok a =>
    refine ⟨e1, ?_, hp1⟩
    rw [run_tryCatch, hxw]
    exact he1
  | error err =>
    obtain ⟨e2, he2, hp2⟩ := hh err w1
    refine ⟨e1 ++ e2, ?_, ?_⟩
    · rw [run_tryCatch, hxw]
      show ((h err w1).2).trace = _
      rw [he2, he1, List.append_assoc]
    · intro e he
      rcases List.mem_append.mp he with h | h
      · exact hp1 e h
      · exact hp2 e h

theorem emitsOnly_ite {α : Type} (c : Prop) [Decidable c] {x y : M α} {P : Event → Prop}
    (hx : EmitsOnly x P) (hy : EmitsOnly y P) : EmitsOnly (if c then x else y) P := by
  by_cases h : c
  · simpa [h] using hx
  · simpa [h] using hy

theorem emitsOnly_extCall {α : Type} {P : Event → Prop} (ev : Event)
    (pre : World → Bool) (res : World → α) (upd : World → World) (err : String)
    (hupd : ∀ w : World, (upd w).trace = w.trace) (hP : P ev) :
    EmitsOnly (extCall ev pre res upd err) P := by
  intro w
  refine ⟨[ev], ?_, ?_⟩
  · rw [run_extCall]
    split
    · rw [hupd]
      rfl
    · rfl
  · intro e he
    rw [List.mem_singleton.mp he]
    exact hP

/- ### Projection lemmas (world bookkeeping) -/

@[simp] theorem recordCall_oracle (w : World) (ev : Event) :
    (recordCall w ev).oracle = w.oracle := rfl
@[simp] theorem recordCall_tick (w : World) (ev : Event) :
    (recordCall w ev).tick = w.tick := rfl
@[simp] theorem recordCall_calls (w : World) (ev : Event) :
    (recordCall w ev).calls = w.calls + 1 := rfl
@[simp] theorem recordCall_time (w : World) (ev : Event) :
    (recordCall w ev).time = w.time + w.tick w.calls := rfl
@[simp] theorem recordCall_trace (w : World) (ev : Event) :
    (recordCall w ev).trace = w.trace ++ [ev] := rfl
@[simp] theorem recordCall_store (w : World) (ev : Event) :
    (recordCall w ev).store = w.store := rfl
@[simp] theorem recordCall_accountId (w : World) (ev : Event) :
    (recordCall w ev).accountId = w.accountId := rfl
@[simp] theorem recordCall_stsAccount (w : World) (ev : Event) :
    (recordCall w ev).stsAccount = w.stsAccount := rfl
@[simp] theorem recordCall_region (w : World) (ev : Event) :
    (recordCall w ev).region = w.region := rfl
@[simp] theorem recordCall_fnState (w : World) (ev : Event) (fn : String) :
    (recordCall w ev).fnState fn = w.fnState fn := rfl

@[simp] theorem setFnState_oracle (w : World) (fn : String) (s : FnState) :
    (w.setFnState fn s).oracle = w.oracle := rfl
@[simp] theorem setFnState_tick (w : World) (fn : String) (s : FnState) :
    (w.setFnState fn s).tick = w.tick := rfl
@[simp] theorem setFnState_calls (w : World) (fn : String) (s : FnState) :
    (w.setFnState fn s).calls = w.calls := rfl
@[simp] theorem setFnState_time (w : World) (fn : String) (s : FnState) :
    (w.setFnState fn s).time = w.time := rfl
@[simp] theorem setFnState_trace (w : World) (fn : String) (s : FnState) :
    (w.setFnState fn s).trace = w.trace := rfl
@[simp] theorem setFnState_accountId (w : World) (fn : String) (s : FnState) :
    (w.setFnState fn s).accountId = w.accountId := rfl
@[simp] theorem setFnState_stsAccount (w : World) (fn : String) (s : FnState) :
    (w.setFnState fn s).stsAccount = w.stsAccount := rfl
@[simp] theorem setFnState_region (w : World) (fn : String) (s : FnState) :
    (w.setFnState fn s).region = w.region := rfl
@[simp] theorem setFnState_fnState (w : World) (fn g : String) (s : FnState) :
    (w.setFnState fn s).fnState g = if g = fn then s else w.fnState g := rfl

@[simp] theorem aliasLookup_recordCall (w : World) (ev : Event) (fn name : String) :
    aliasLookup (recordCall w ev) fn name = aliasLookup w fn name := rfl

/- ### Version ids are never blank -/

theorem toDigitsCore_length_lt (b : Nat) :
    ∀ (f n : Nat) (ds : List Char), 0 < f →
      ds.length < (Nat.toDigitsCore b f n ds).length := by
  intro f
  induction f with
  | zero => intro n ds h; cases h
  | succ f ih =>
    intro n ds _
    rw [Nat.toDigitsCore]
    split
    · simp
    · cases f with
      | zero =>
        rw [Nat.toDigitsCore]
        simp
      | succ f2 =>
        have h1 : ds.length < (Nat.digitChar (n % b) :: ds).length := by simp
        exact h1.trans (ih _ _ (Nat.succ_pos f2))

theorem toString_nat_ne_empty (k : Nat) : toString k ≠ "" := by
  intro h
  have hlen : (Nat.toDigits 10 k).length = 0 := by
    have h2 := congrArg String.length h
    simpa [toString, Nat.repr, List.asString, String.length] using h2
  have h3 := toDigitsCore_length_lt 10 (k + 1) k [] (Nat.succ_pos k)
  rw [Nat.toDigits] at hlen
  omega

/- ### The result contract of `deployWithVersioning` -/

/-- What every run of `deployWithVersioning` started at clock `t0`
returns: an `ok` result (never a thrown error); on success, metrics
carrying the artifact byte size and an elapsed wall-clock time measured
inside the call's time window, plus a freshly published version id; on
failure, an error message and no metrics. -/
def DeployContract (size t0 : Nat) (p : Except String DeploymentResult × World) : Prop :=
  ∃ r, p.1 = .ok r ∧
    (r.success = true →
      r.error = none ∧ r.«alias» = none ∧
      (∃ k : Nat, r.version = some (toString (k + 1))) ∧
      (∃ dt, r.metrics = some { deploymentTime := dt, functionSize := size } ∧
        t0 + dt ≤ ((p.2).time))) ∧
    (r.success = false → r.metrics = none ∧ r.version = none ∧ ∃ e, r.error = some e)

theorem DeployContract_fail (size t0 : Nat) (e : String) (W : World) :
    DeployContract size t0
      (.ok { success := false, version := none, «alias» := none,
             error := some e, metrics := none }, W) :=
  ⟨_, rfl, fun h => Bool.noConfusion h, fun _ => ⟨rfl, rfl, ⟨e, rfl⟩⟩⟩

theorem DeployContract_success (size t0 k dt : Nat) (W : World)
    (hdt : t0 + dt ≤ W.time) :
    DeployContract size t0
      (.ok { success := true, version := some (toString (k + 1)), «alias» := none,
             error := none,
             metrics := some { deploymentTime := dt, functionSize := size } }, W) :=
  ⟨_, rfl, fun _ => ⟨rfl, rfl, ⟨k, rfl⟩, ⟨dt, rfl, hdt⟩⟩, fun h => Bool.noConfusion h⟩

set_option maxHeartbeats 1600000 in
theorem deployWithVersioning_contract (config : DeploymentConfig) (w : World) :
    DeployContract config.codeSize w.time (deployWithVersioning config w) := by
  unfold deployWithVersioning validateFunctionName trackDeploymentMetrics
    send_UpdateFunctionCode send_UpdateFunctionConfiguration send_PublishVersion
    send_PutMetricData
  rcases hv : validateFunctionNameE config.functionName with e | u
  · simp [run_bind, run_now, run_tryCatch, run_ofExcept, run_pure, run_throwM,
      run_extCall, hv]
    exact DeployContract_fail _ _ _ _
  by_cases h0 : config.codeSize = 0
  · simp [run_bind, run_now, run_tryCatch, run_ofExcept, run_pure, run_throwM,
      run_extCall, hv, h0]
    exact DeployContract_fail _ _ _ _
  by_cases hbig : 50 * 1024 * 1024 < config.codeSize
  · simp [run_bind, run_now, run_tryCatch, run_ofExcept, run_pure, run_throwM,
      run_extCall, hv, h0, hbig]
    exact DeployContract_fail _ _ _ _
  cases o0 : w.oracle w.calls with
  | false =>
    simp [run_bind, run_now, run_tryCatch, run_ofExcept, run_pure, run_throwM,
      run_extCall, hv, h0, hbig, o0]
    exact DeployContract_fail _ _ _ _
  | true =>
    by_cases hc : (config.environment.isSome = true ∨ config.timeout.getD 0 ≠ 0 ∨
        config.memorySize.getD 0 ≠ 0)
    · rcases henv : config.environment with _ | vars
      · have hrest : (¬ config.timeout.getD 0 = 0) ∨ (¬ config.memorySize.getD 0 = 0) := by
          rcases hc with h | h | h
          · rw [henv] at h
            exact absurd h (by simp)
          · exact Or.inl h
          · exact Or.inr h
        cases o1 : w.oracle (w.calls + 1) with
        | false =>
          simp [run_bind, run_now, run_tryCatch, run_ofExcept, run_pure, run_throwM,
            run_extCall, hv, h0, hbig, o0, henv, hrest, o1]
          exact DeployContract_fail _ _ _ _
        | true =>
          cases o2 : w.oracle (w.calls + 2) with
          | false =>
            simp [run_bind, run_now, run_tryCatch, run_ofExcept, run_pure, run_throwM,
              run_extCall, hv, h0, hbig, o0, henv, hrest, o1, o2]
            exact DeployContract_fail _ _ _ _
          | true =>
            cases o3 : w.oracle (w.calls + 3) with
            | false =>
              simp [run_bind, run_now, run_tryCatch, run_ofExcept, run_pure, run_throwM,
                run_extCall, hv, h0, hbig, o0, henv, hrest, o1, o2, o3]
              exact DeployContract_success _ _ _ _ _ (by simp; omega)
            | true =>
              simp [run_bind, run_now, run_tryCatch, run_ofExcept, run_pure, run_throwM,
                run_extCall, hv, h0, hbig, o0, henv, hrest, o1, o2, o3]
              exact DeployContract_success _ _ _ _ _ (by simp; omega)
      · cases o1 : w.oracle (w.calls + 1) with
        | false =>
          simp [run_bind, run_now, run_tryCatch, run_ofExcept, run_pure, run_throwM,
            run_extCall, hv, h0, hbig, o0, henv, o1]
          exact DeployContract_fail _ _ _ _
        | true =>
          cases o2 : w.oracle (w.calls + 2) with
          | false =>
            simp [run_bind, run_now, run_tryCatch, run_ofExcept, run_pure, run_throwM,
              run_extCall, hv, h0, hbig, o0, henv, o1, o2]
            exact DeployContract_fail _ _ _ _
          | true =>
            cases o3 : w.oracle (w.calls + 3) with
            | false =>
              simp [run_bind, run_now, run_tryCatch, run_ofExcept, run_pure, run_throwM,
                run_extCall, hv, h0, hbig, o0, henv, o1, o2, o3]
              exact DeployContract_success _ _ _ _ _ (by simp; omega)
            | true =>
              simp [run_bind, run_now, run_tryCatch, run_ofExcept, run_pure, run_throwM,
                run_extCall, hv, h0, hbig, o0, henv, o1, o2, o3]
              exact DeployContract_success _ _ _ _ _ (by simp; omega)
    · have hc1 : config.environment.isSome = false := by
        cases hval : config.environment.isSome with
        | false => rfl
        | true => exact absurd (Or.inl hval) hc
      have hc2 : config.timeout.getD 0 = 0 := by
        by_contra hne
        exact hc (Or.inr (Or.inl hne))
      have hc3 : config.memorySize.getD 0 = 0 := by
        by_contra hne
        exact hc (Or.inr (Or.inr hne))
      cases o1 : w.oracle (w.calls + 1) with
      | false =>
        simp [run_bind, run_now, run_tryCatch, run_ofExcept, run_pure, run_throwM,
          run_extCall, hv, h0, hbig, o0, hc1, hc2, hc3, o1]
        exact DeployContract_fail _ _ _ _
      | true =>
        cases o2 : w.oracle (w.calls + 2) with
        | false =>
          simp [run_bind, run_now, run_tryCatch, run_ofExcept, run_pure, run_throwM,
            run_extCall, hv, h0, hbig, o0, hc1, hc2, hc3, o1, o2]
          exact DeployContract_success _ _ _ _ _ (by simp; omega)
        | true =>
          simp [run_bind, run_now, run_tryCatch, run_ofExcept, run_pure, run_throwM,
            run_extCall, hv, h0, hbig, o0, hc1, hc2, hc3, o1, o2]
          exact DeployContract_success _ _ _ _ _ (by simp; omega)

/- quick sanity examples (concrete executions) -/

def exampleWorld : World :=
  { store := fun _ => {}, oracle := fun _ => true, tick := fun _ => 1 }

example :
    ((deployWithVersioning { functionName := "f", codeSize := 10 } exampleWorld).1 :
      Except String DeploymentResult) =
      .ok { success := true, version := some "1",
            metrics := some { deploymentTime := 2, functionSize := 10 } } := by
  decide

/- ### Concrete worlds used by witnesses and counterexamples -/

/-- Fresh registry, every external call accepted, clock advancing 1ms
per call. -/
def wBase : World :=
  { store := fun _ => {}, oracle := fun _ => true, tick := fun _ => 1 }

/-- Fresh registry, every external call refused. -/
def wAllFail : World :=
  { store := fun _ => {}, oracle := fun _ => false, tick := fun _ => 1 }

/-- One unit with a `live` alias on version 1, every call accepted. -/
def wLiveAlias : World :=
  { store := fun g =>
      if g = "my-function" then { aliases := [("live", "1")], versions := ["1"] }
      else {},
    oracle := fun _ => true, tick := fun _ => 1 }

/- ### C1 — promoteCanary retry/backoff -/

/-- C1 counterexample: with every alias-update attempt failing,
`promoteCanary` does not return a value reporting the failure — it
throws the promotion-failed error (the claim's "returns PromotionFailed
... without throwing" is false on the code). -/
theorem promoteCanary_throws_counterexample :
    (promoteCanary "my-function" "2" wAllFail).1 =
      .error "Canary promotion failed after 3 attempts" := by decide

/-- C1 (amended): when every alias-update attempt fails, `promoteCanary`
makes exactly 3 attempts (each re-issuing the same update of the `live`
alias to the version), sleeps 2000ms after the first failure and 4000ms
after the second, and then throws an error reporting 3 attempts; when
an attempt succeeds, no further attempts or sleeps occur. -/
theorem promoteCanary_three_attempts_with_backoff (fn v : String) (w1 w2 : World)
    (hfail : ∀ i, w1.oracle i = false)
    (hok : w2.oracle w2.calls = true)
    (hex : (aliasLookup w2 fn "live").isSome = true) :
    ((promoteCanary fn v w1).1 = .error "Canary promotion failed after 3 attempts" ∧
      ((promoteCanary fn v w1).2).trace = w1.trace ++
        [.updateAlias fn "live" v, .sleep 2000, .updateAlias fn "live" v,
         .sleep 4000, .updateAlias fn "live" v]) ∧
    ((promoteCanary fn v w2).1 = .ok () ∧
      ((promoteCanary fn v w2).2).trace = w2.trace ++ [.updateAlias fn "live" v]) := by
  constructor
  · unfold promoteCanary
    simp [promoteCanaryGo, send_UpdateAlias, run_tryCatch, run_bind, run_extCall,
      sleepM, run_throwM, hfail]
  · unfold promoteCanary
    simp [promoteCanaryGo, send_UpdateAlias, run_tryCatch, run_bind, run_extCall,
      hok, hex]

theorem promoteCanary_three_attempts_with_backoff_witness :
    (((promoteCanary "my-function" "2" wAllFail).1 =
        .error "Canary promotion failed after 3 attempts" ∧
      ((promoteCanary "my-function" "2" wAllFail).2).trace = wAllFail.trace ++
        [.updateAlias "my-function" "live" "2", .sleep 2000,
         .updateAlias "my-function" "live" "2", .sleep 4000,
         .updateAlias "my-function" "live" "2"]) ∧
     ((promoteCanary "my-function" "2" wLiveAlias).1 = .ok () ∧
      ((promoteCanary "my-function" "2" wLiveAlias).2).trace = wLiveAlias.trace ++
        [.updateAlias "my-function" "live" "2"])) :=
  promoteCanary_three_attempts_with_backoff "my-function" "2" wAllFail wLiveAlias
    (fun _ => rfl) rfl (by decide)

/- ### C2 — deployWithVersioning result/metrics contract -/

/-- C2 counterexample: a run whose code upload fails returns a failed
result carrying no metrics at all, refuting "carries the metrics
regardless of outcome". -/
theorem deployWithVersioning_no_metrics_on_failure_counterexample :
    (deployWithVersioning { functionName := "my-function", codeSize := 10 } wAllFail).1 =
      .ok { success := false, version := none, «alias» := none,
            error := some "UpdateFunctionCode failed", metrics := none } := by decide

/-- C2 (amended): `deployWithVersioning` always returns a result value
(never throws to its caller); on success the result carries metrics
with the artifact byte size and an elapsed wall-clock time measured
inside the call, plus the published version; on failure it carries the
underlying error message and no metrics. -/
theorem deployWithVersioning_result_contract (config : DeploymentConfig) (w : World) :
    DeployContract config.codeSize w.time (deployWithVersioning config w) :=
  deployWithVersioning_contract config w

/- ### C5 — pre-flight artifact check -/

/-- C5: an artifact that is empty or strictly larger than 50 MiB is
rejected by the local pre-flight check: `deployWithVersioning` returns
a failed `DeploymentResult` and the world is completely untouched — no
external call of any kind, no store change, no metric emission. -/
theorem deployWithVersioning_preflight_rejects_bad_artifact
    (config : DeploymentConfig) (w : World)
    (h : config.codeSize = 0 ∨ 50 * 1024 * 1024 < config.codeSize) :
    (∃ e, (deployWithVersioning config w).1 =
      .ok { success := false, version := none, «alias» := none,
            error := some e, metrics := none }) ∧
    (deployWithVersioning config w).2 = w := by
  unfold deployWithVersioning validateFunctionName
  rcases hv : validateFunctionNameE config.functionName with e | u
  · constructor
    · exact ⟨e, by simp [run_bind, run_now, run_tryCatch, run_ofExcept, run_pure,
        run_throwM, hv]⟩
    · simp [run_bind, run_now, run_tryCatch, run_ofExcept, run_pure, run_throwM, hv]
  · by_cases h0 : config.codeSize = 0
    · constructor
      · exact ⟨"Function code cannot be empty", by simp [run_bind, run_now,
          run_tryCatch, run_ofExcept, run_pure, run_throwM, hv, h0]⟩
      · simp [run_bind, run_now, run_tryCatch, run_ofExcept, run_pure, run_throwM,
          hv, h0]
    · have hbig : 50 * 1024 * 1024 < config.codeSize := h.resolve_left h0
      constructor
      · exact ⟨"Function code size exceeds 50MB limit", by simp [run_bind, run_now,
          run_tryCatch, run_ofExcept, run_pure, run_throwM, hv, h0, hbig]⟩
      · simp [run_bind, run_now, run_tryCatch, run_ofExcept, run_pure, run_throwM,
          hv, h0, hbig]

/-- A 51 MiB artifact. -/
def cfgTooLarge : DeploymentConfig :=
  { functionName := "my-function", codeSize := 51 * 1024 * 1024 }

theorem deployWithVersioning_preflight_rejects_bad_artifact_witness :
    (cfgTooLarge.codeSize = 0 ∨ 50 * 1024 * 1024 < cfgTooLarge.codeSize) ∧
    ((∃ e, (deployWithVersioning cfgTooLarge wBase).1 =
      .ok { success := false, version := none, «alias» := none,
            error := some e, metrics := none }) ∧
     (deployWithVersioning cfgTooLarge wBase).2 = wBase) :=
  ⟨Or.inr (by decide),
   deployWithVersioning_preflight_rejects_bad_artifact cfgTooLarge wBase
     (Or.inr (by decide))⟩

/- ### C3 — alias upsert -/

theorem lookupStr_append_right (l m : List (String × String)) (n : String)
    (h : lookupStr l n = none) : lookupStr (l ++ m) n = lookupStr m n := by
  induction l with
  | nil => simp
  | cons p t ih =>
    rcases p with ⟨k, u⟩
    by_cases hk : n = k
    · subst hk
      simp [lookupStr] at h
    · simp only [List.cons_append, lookupStr, if_neg hk] at h ⊢
      exact ih h

theorem aliasLookup_setFnState (w : World) (fn g : String) (s : FnState)
    (name : String) :
    aliasLookup (w.setFnState fn s) g name =
      if g = fn then lookupStr s.aliases name else aliasLookup w g name := by
  unfold aliasLookup
  rw [setFnState_fnState]
  split <;> rfl

def wCreateFail : World :=
  { store := fun _ => {}, oracle := fun n => decide (n ≠ 4), tick := fun _ => 1 }

/-- C3 counterexample: with the alias absent and the create call
failing (the claim's concurrent-creation race), the create failure is
not caught — no fallback update is attempted (the trace ends at the
create) and the enclosing workflow returns a failed result. -/
theorem upsertAlias_create_failure_not_caught_counterexample :
    (blueGreenDeploy { functionName := "my-function", codeSize := 10 } wCreateFail).1 =
      .ok { success := false, version := none, «alias» := none,
            error := some "CreateAlias failed: alias already exists",
            metrics := none } ∧
    ((blueGreenDeploy { functionName := "my-function", codeSize := 10 } wCreateFail).2).trace =
      [.updateFunctionCode "my-function" 10,
       .publishVersion "my-function" "Deployment at 1",
       .putMetricData "AWS/Lambda/Deployment" "my-function" 2 10,
       .getAlias "my-function" "live",
       .createAlias "my-function" "live" "1"] := by decide

/-- C3 (amended): the alias upsert reads the alias and updates it when
the read succeeds, and creates it when the read fails; after any
successful upsert the alias resolves to the given version and exactly
one alias of that name exists.  A create failure is not caught: the
error propagates to the enclosing workflow, with no fallback update. -/
theorem upsertAlias_create_or_update (fn name v : String) (w : World)
    (hone : (aliasEntries ((w.fnState fn).aliases) name).length ≤ 1) :
    ((upsertAliasGetFirst fn name v w).1 = .ok () →
      aliasLookup ((upsertAliasGetFirst fn name v w).2) fn name = some v ∧
      (aliasEntries (((upsertAliasGetFirst fn name v w).2).fnState fn).aliases name).length = 1) ∧
    ((aliasLookup w fn name).isSome = true → w.oracle w.calls = true →
      w.oracle (w.calls + 1) = true →
      (upsertAliasGetFirst fn name v w).1 = .ok () ∧
      ((upsertAliasGetFirst fn name v w).2).trace =
        w.trace ++ [.getAlias fn name, .updateAlias fn name v]) ∧
    (aliasLookup w fn name = none → w.oracle (w.calls + 1) = true →
      (upsertAliasGetFirst fn name v w).1 = .ok () ∧
      ((upsertAliasGetFirst fn name v w).2).trace =
        w.trace ++ [.getAlias fn name, .createAlias fn name v]) ∧
    (aliasLookup w fn name = none → w.oracle (w.calls + 1) = false →
      (upsertAliasGetFirst fn name v w).1 =
        .error "CreateAlias failed: alias already exists" ∧
      ((upsertAliasGetFirst fn name v w).2).trace =
        w.trace ++ [.getAlias fn name, .createAlias fn name v]) := by
  cases hal : aliasLookup w fn name with
  | some x =>
    have hs : (aliasLookup w fn name).isSome = true := by rw [hal]; rfl
    have hal2 : lookupStr ((w.fnState fn).aliases) name = some x := hal
    cases og : w.oracle w.calls with
    | true =>
      cases ou : w.oracle (w.calls + 1) with
      | true =>
        simp [upsertAliasGetFirst, send_GetAlias, send_UpdateAlias, send_CreateAlias,
          run_extCall, run_tryCatch, run_bind, run_pure, hal, hs, og, ou,
          aliasLookup_setFnState]
        refine ⟨lookup_setAliasList_self _ _ _ (by rw [hal2]; rfl), ?_⟩
        rw [aliasEntries_setAliasList, List.length_map]
        have h1 : aliasEntries ((w.fnState fn).aliases) name ≠ [] :=
          aliasEntries_ne_nil_of_lookup_isSome _ _ (by rw [hal2]; rfl)
        have h2 : 0 < (aliasEntries ((w.fnState fn).aliases) name).length :=
          List.length_pos.mpr h1
        omega
      | false =>
        simp [upsertAliasGetFirst, send_GetAlias, send_UpdateAlias, send_CreateAlias,
          run_extCall, run_tryCatch, run_bind, run_pure, hal, hs, og, ou,
          aliasLookup_setFnState]
    | false =>
      simp [upsertAliasGetFirst, send_GetAlias, send_UpdateAlias, send_CreateAlias,
        run_extCall, run_tryCatch, run_bind, run_pure, hal, hs, og,
        aliasLookup_setFnState]
  | none =>
    cases oc : w.oracle (w.calls + 1) with
    | true =>
      simp [upsertAliasGetFirst, send_GetAlias, send_UpdateAlias, send_CreateAlias,
        run_extCall, run_tryCatch, run_bind, run_pure, hal, oc,
        aliasLookup_setFnState]
      constructor
      · rw [lookupStr_append_right _ _ _ hal]
        simp [lookupStr]
      · rw [aliasEntries_append, aliasEntries_nil_of_lookup_none _ _ hal]
        simp [aliasEntries]
    | false =>
      simp [upsertAliasGetFirst, send_GetAlias, send_UpdateAlias, send_CreateAlias,
        run_extCall, run_tryCatch, run_bind, run_pure, hal, oc,
        aliasLookup_setFnState]

theorem upsertAlias_create_or_update_witness :
    ((upsertAliasGetFirst "my-function" "live" "2" wLiveAlias).1 = .ok () →
      aliasLookup ((upsertAliasGetFirst "my-function" "live" "2" wLiveAlias).2)
        "my-function" "live" = some "2" ∧
      (aliasEntries (((upsertAliasGetFirst "my-function" "live" "2" wLiveAlias).2).fnState
        "my-function").aliases "live").length = 1) ∧
    ((aliasLookup wLiveAlias "my-function" "live").isSome = true →
      wLiveAlias.oracle wLiveAlias.calls = true →
      wLiveAlias.oracle (wLiveAlias.calls + 1) = true →
      (upsertAliasGetFirst "my-function" "live" "2" wLiveAlias).1 = .ok () ∧
      ((upsertAliasGetFirst "my-function" "live" "2" wLiveAlias).2).trace =
        wLiveAlias.trace ++ [.getAlias "my-function" "live",
          .updateAlias "my-function" "live" "2"]) ∧
    (aliasLookup wLiveAlias "my-function" "live" = none →
      wLiveAlias.oracle (wLiveAlias.calls + 1) = true →
      (upsertAliasGetFirst "my-function" "live" "2" wLiveAlias).1 = .ok () ∧
      ((upsertAliasGetFirst "my-function" "live" "2" wLiveAlias).2).trace =
        wLiveAlias.trace ++ [.getAlias "my-function" "live",
          .createAlias "my-function" "live" "2"]) ∧
    (aliasLookup wLiveAlias "my-function" "live" = none →
      wLiveAlias.oracle (wLiveAlias.calls + 1) = false →
      (upsertAliasGetFirst "my-function" "live" "2" wLiveAlias).1 =
        .error "CreateAlias failed: alias already exists" ∧
      ((upsertAliasGetFirst "my-function" "live" "2" wLiveAlias).2).trace =
        wLiveAlias.trace ++ [.getAlias "my-function" "live",
          .createAlias "my-function" "live" "2"]) :=
  upsertAlias_create_or_update "my-function" "live" "2" wLiveAlias (by decide)

/- ### Event classes and per-phase run facts -/

/-- Events the deploy phase of `canaryDeploy` may issue (its
`DeploymentConfig` carries no environment/timeout/memory, so no
configuration write happens there). -/
def CanaryDeployPhaseEv (fn : String) (e : Event) : Prop :=
  (∃ s, e = .updateFunctionCode fn s) ∨ (∃ d, e = .publishVersion fn d) ∨
  (∃ a b c d, e = .putMetricData a b c d)

/-- Events the canary-alias phase may issue. -/
def CanaryAliasEv (fn : String) (e : Event) : Prop :=
  (∃ x, e = .updateAlias fn "canary" x) ∨ (∃ x, e = .createAlias fn "canary" x)

/-- The one event the traffic phase issues. -/
def TrafficWriteEv (fn : String) (p : Rat) (e : Event) : Prop :=
  e = .updateFunctionConfiguration fn (some (trafficEnvVars "canary" "live" p)) none none

/-- Events the promotion-scheduling phase may issue. -/
def SchedPhaseEv (e : Event) : Prop :=
  e = .getCallerIdentity ∨ (∃ a b, e = .putRule a b) ∨ (∃ a b c, e = .putTargets a b c)

def isConfigWrite : Event → Bool
  | .updateFunctionConfiguration _ _ _ _ => true
  | _ => false

def isPublishEv (e : Event) : Prop := ∃ f d, e = .publishVersion f d

def isTrafficCfgEv (e : Event) : Prop :=
  ∃ f env t m, e = .updateFunctionConfiguration f env t m

/-- The traffic write always reports success (its failure is swallowed)
and always traces exactly one configuration write carrying the whole
weight table. -/
theorem setupTrafficShifting_run (fn live canary : String) (p : Rat) (w : World) :
    (setupTrafficShifting fn live canary p w).1 = .ok () ∧
    ((setupTrafficShifting fn live canary p w).2).trace = w.trace ++
      [.updateFunctionConfiguration fn (some (trafficEnvVars canary live p)) none none] := by
  unfold setupTrafficShifting send_UpdateFunctionConfiguration
  cases o : w.oracle w.calls with
  | true => simp [run_extCall, run_tryCatch, run_pure, o]
  | false => simp [run_extCall, run_tryCatch, run_pure, o]

/-- Run equation of the traffic write when the registry accepts it. -/
theorem setupTrafficShifting_ok (fn live canary : String) (p : Rat) (w : World)
    (o : w.oracle w.calls = true) :
    setupTrafficShifting fn live canary p w =
      (.ok (), (recordCall w
          (.updateFunctionConfiguration fn (some (trafficEnvVars canary live p)) none none)).setFnState fn
        { w.fnState fn with env := trafficEnvVars canary live p }) := by
  simp [setupTrafficShifting, send_UpdateFunctionConfiguration, run_extCall,
    run_tryCatch, run_pure, o]

/- ### C10 — the traffic write replaces the environment map -/

/-- C10: whenever the traffic-weight configuration write is accepted,
the unit's environment map afterwards consists of exactly the three
keys TRAFFIC_WEIGHTS, CANARY_PERCENT and LIVE_PERCENT — it replaces,
rather than merges with, whatever environment was configured before
(the conclusion does not depend on the previous environment). -/
theorem setupTrafficShifting_replaces_environment
    (fn live canary : String) (p : Rat) (w : World)
    (o : w.oracle w.calls = true) :
    (setupTrafficShifting fn live canary p w).1 = .ok () ∧
    (((setupTrafficShifting fn live canary p w).2).fnState fn).env =
      trafficEnvVars canary live p ∧
    ((((setupTrafficShifting fn live canary p w).2).fnState fn).env).map Prod.fst =
      ["TRAFFIC_WEIGHTS", "CANARY_PERCENT", "LIVE_PERCENT"] := by
  rw [setupTrafficShifting_ok fn live canary p w o]
  refine ⟨rfl, ?_, ?_⟩ <;> simp [trafficEnvVars]

/-- A world whose unit already carries unrelated environment variables:
the traffic write wipes them. -/
def wOldEnv : World :=
  { store := fun g =>
      if g = "my-function" then
        { aliases := [("canary", "1"), ("live", "1")],
          env := [("OLD_KEY", "old-value")], versions := ["1"] }
      else {},
    oracle := fun _ => true, tick := fun _ => 1 }

theorem setupTrafficShifting_replaces_environment_witness :
    (setupTrafficShifting "my-function" "live" "canary" 30 wOldEnv).1 = .ok () ∧
    (((setupTrafficShifting "my-function" "live" "canary" 30 wOldEnv).2).fnState
      "my-function").env = trafficEnvVars "canary" "live" 30 ∧
    ((((setupTrafficShifting "my-function" "live" "canary" 30 wOldEnv).2).fnState
      "my-function").env).map Prod.fst =
      ["TRAFFIC_WEIGHTS", "CANARY_PERCENT", "LIVE_PERCENT"] :=
  setupTrafficShifting_replaces_environment "my-function" "live" "canary" 30 wOldEnv rfl

/- ### C7 — rollback touches only the live alias -/

/-- C7: for a valid unit name and a `^\d+$` target version, a granted
rollback returns success, repoints only the `live` alias to the target
version — every other alias, the environment map (traffic weights) and
the published versions of the unit, and every other unit, are unchanged
— and a subsequent (granted) `getDeploymentHistory` on the unit reports
`liveVersion` equal to the target version. -/
theorem rollbackToVersion_frame (fn tv : String) (w : World)
    (hname : validateFunctionNameE fn = .ok ())
    (htv1 : ¬ tv = "") (htv2 : tv.data.all Char.isDigit = true)
    (halias : (aliasLookup w fn "live").isSome = true)
    (o0 : w.oracle w.calls = true)
    (o1 : w.oracle (w.calls + 1) = true)
    (o2 : w.oracle (w.calls + 2) = true) :
    (rollbackToVersion fn tv w).1 =
      .ok { success := true, version := some tv, «alias» := some "live",
            error := none, metrics := none } ∧
    aliasLookup ((rollbackToVersion fn tv w).2) fn "live" = some tv ∧
    (∀ a, a ≠ "live" →
      aliasLookup ((rollbackToVersion fn tv w).2) fn a = aliasLookup w fn a) ∧
    (((rollbackToVersion fn tv w).2).fnState fn).env = (w.fnState fn).env ∧
    (((rollbackToVersion fn tv w).2).fnState fn).versions = (w.fnState fn).versions ∧
    (∀ g, g ≠ fn → ((rollbackToVersion fn tv w).2).fnState g = w.fnState g) ∧
    ∃ hst, (getDeploymentHistory fn ((rollbackToVersion fn tv w).2)).1 = .ok hst ∧
      hst.liveVersion = tv := by
  have halias2 : (lookupStr ((w.fnState fn).aliases) "live").isSome = true := halias
  have hW : rollbackToVersion fn tv w =
      (.ok { success := true, version := some tv, «alias» := some "live",
             error := none, metrics := none },
       (recordCall w (.updateAlias fn "live" tv)).setFnState fn
         { w.fnState fn with
             aliases := setAliasList ((w.fnState fn).aliases) "live" tv }) := by
    unfold rollbackToVersion validateFunctionName send_UpdateAlias
    simp [run_bind, run_tryCatch, run_ofExcept, run_pure, run_extCall, run_throwM,
      hname, htv1, htv2, o0, halias]
  rw [hW]
  refine ⟨rfl, ?_, ?_, ?_, ?_, ?_, ?_⟩
  · simp [aliasLookup_setFnState]
    exact lookup_setAliasList_self _ _ _ halias2
  · intro a ha
    simp [aliasLookup_setFnState]
    rw [lookup_setAliasList_ne _ _ _ _ ha]
    rfl
  · simp
  · simp
  · intro g hg
    simp [World.fnState, World.setFnState, hg]
  · have hlook : aliasLookup
        ((recordCall w (.updateAlias fn "live" tv)).setFnState fn
          { w.fnState fn with
              aliases := setAliasList ((w.fnState fn).aliases) "live" tv }) fn "live" =
        some tv := by
      simp [aliasLookup_setFnState]
      exact lookup_setAliasList_self _ _ _ halias2
    refine ⟨{ versions := (w.fnState fn).versions,
              currentVersion := ((w.fnState fn).versions).getLast?.getD "",
              liveVersion := tv }, ?_, rfl⟩
    unfold getDeploymentHistory validateFunctionName send_ListVersions send_GetAlias
    simp [run_bind, run_tryCatch, run_ofExcept, run_pure, run_extCall, run_throwM,
      hname, o1, o2, hlook]

/-- A unit with live and canary aliases and three published versions. -/
def wRoll : World :=
  { store := fun g =>
      if g = "my-function" then
        { aliases := [("live", "9"), ("canary", "3")],
          env := [("TRAFFIC_WEIGHTS", "w")], versions := ["1", "2", "3"] }
      else {},
    oracle := fun _ => true, tick := fun _ => 1 }

theorem rollbackToVersion_frame_witness :
    (rollbackToVersion "my-function" "7" wRoll).1 =
      .ok { success := true, version := some "7", «alias» := some "live",
            error := none, metrics := none } ∧
    aliasLookup ((rollbackToVersion "my-function" "7" wRoll).2) "my-function" "live" =
      some "7" ∧
    (∀ a, a ≠ "live" →
      aliasLookup ((rollbackToVersion "my-function" "7" wRoll).2) "my-function" a =
        aliasLookup wRoll "my-function" a) ∧
    (((rollbackToVersion "my-function" "7" wRoll).2).fnState "my-function").env =
      (wRoll.fnState "my-function").env ∧
    (((rollbackToVersion "my-function" "7" wRoll).2).fnState "my-function").versions =
      (wRoll.fnState "my-function").versions ∧
    (∀ g, g ≠ "my-function" →
      ((rollbackToVersion "my-function" "7" wRoll).2).fnState g = wRoll.fnState g) ∧
    ∃ hst, (getDeploymentHistory "my-function"
        ((rollbackToVersion "my-function" "7" wRoll).2)).1 = .ok hst ∧
      hst.liveVersion = "7" :=
  rollbackToVersion_frame "my-function" "7" wRoll (by decide) (by decide) (by decide)
    (by decide) rfl rfl rfl

/- ### C9 — evaluation criteria are only range-checked -/

theorem validateCanaryConfigE_criteria_irrelevant (f : String) (p d er la : Rat)
    (h1 : 0 ≤ er) (h2 : er ≤ 1) (h3 : 0 ≤ la) :
    validateCanaryConfigE ⟨f, p, d, ⟨er, la⟩⟩ =
      validateCanaryConfigE ⟨f, p, d, ⟨0, 0⟩⟩ := by
  unfold validateCanaryConfigE
  dsimp only
  have h5 : ¬ (er < 0 ∨ 1 < er) := by
    rintro (h | h)
    · exact absurd h (not_lt.mpr h1)
    · exact absurd h (not_lt.mpr h2)
  have h6 : ¬ (la < 0) := not_lt.mpr h3
  have h5z : ¬ ((0 : Rat) < 0 ∨ 1 < (0 : Rat)) := by norm_num
  have h6z : ¬ ((0 : Rat) < 0) := by norm_num
  rw [if_neg h5, if_neg h6, if_neg h5z, if_neg h6z]

theorem canaryDeploy_ignores_evaluation_criteria
    (f : String) (p d : Rat) (c1 c2 : EvaluationCriteria) (n : Nat) (w : World)
    (h1 : 0 ≤ c1.errorRate) (h2 : c1.errorRate ≤ 1) (h3 : 0 ≤ c1.latency)
    (h4 : 0 ≤ c2.errorRate) (h5 : c2.errorRate ≤ 1) (h6 : 0 ≤ c2.latency) :
    canaryDeploy ⟨f, p, d, c1⟩ n w = canaryDeploy ⟨f, p, d, c2⟩ n w := by
  rcases c1 with ⟨e1, l1⟩
  rcases c2 with ⟨e2, l2⟩
  unfold canaryDeploy validateCanaryConfig
  rw [validateCanaryConfigE_criteria_irrelevant f p d e1 l1 h1 h2 h3,
      validateCanaryConfigE_criteria_irrelevant f p d e2 l2 h4 h5 h6]

/-- C9: two canary configurations identical except in their evaluation
criteria, with both criteria inside the valid ranges, make `canaryDeploy`
issue the same external calls (identical traces) and return the same
`DeploymentResult`: past validation the criteria are never used. -/
theorem canaryDeploy_criteria_independent
    (f : String) (p d : Rat) (c1 c2 : EvaluationCriteria) (n : Nat) (w : World)
    (h1 : 0 ≤ c1.errorRate) (h2 : c1.errorRate ≤ 1) (h3 : 0 ≤ c1.latency)
    (h4 : 0 ≤ c2.errorRate) (h5 : c2.errorRate ≤ 1) (h6 : 0 ≤ c2.latency) :
    (canaryDeploy ⟨f, p, d, c1⟩ n w).1 = (canaryDeploy ⟨f, p, d, c2⟩ n w).1 ∧
    ((canaryDeploy ⟨f, p, d, c1⟩ n w).2).trace =
      ((canaryDeploy ⟨f, p, d, c2⟩ n w).2).trace := by
  rw [canaryDeploy_ignores_evaluation_criteria f p d c1 c2 n w h1 h2 h3 h4 h5 h6]
  exact ⟨rfl, rfl⟩

theorem canaryDeploy_criteria_independent_witness :
    ((canaryDeploy ⟨"my-function", 30, 5, ⟨1/10, 100⟩⟩ 10 wBase).1 =
      (canaryDeploy ⟨"my-function", 30, 5, ⟨9/10, 0⟩⟩ 10 wBase).1) ∧
    (((canaryDeploy ⟨"my-function", 30, 5, ⟨1/10, 100⟩⟩ 10 wBase).2).trace =
      ((canaryDeploy ⟨"my-function", 30, 5, ⟨9/10, 0⟩⟩ 10 wBase).2).trace) :=
  canaryDeploy_criteria_independent "my-function" 30 5 ⟨1/10, 100⟩ ⟨9/10, 0⟩ 10 wBase
    (by norm_num) (by norm_num) (by norm_num) (by norm_num) (by norm_num) (by norm_num)

/- ### C4 — scheduling failure never regresses a canary success -/

/-- A `try/catch` whose handler is a plain `pure ()` can only succeed. -/
theorem tryCatch_pure_unit_ok (x : M Unit) (w : World) :
    ∃ w', M.tryCatch x (fun _ => Pure.pure ()) w = (.ok (), w') := by
  rcases hx : x w with ⟨r, w1⟩
  cases r with
  | ok a =>
    cases a
    exact ⟨w1, by rw [run_tryCatch, hx]⟩
  | error e => exact ⟨w1, by rw [run_tryCatch, hx]; rfl⟩

/-- The promotion scheduler swallows every failure: it always returns
`ok`. -/
theorem scheduleCanaryPromotion_never_fails (fn v : String) (d : Rat) (w : World) :
    ∃ w', scheduleCanaryPromotion fn v d w = (.ok (), w') := by
  unfold scheduleCanaryPromotion
  exact tryCatch_pure_unit_ok _ w

/-- Sequencing past the scheduler never diverts into an error branch. -/
theorem run_sched_bind {α : Type} (fn v : String) (d : Rat) (k : Unit → M α)
    (w : World) :
    (scheduleCanaryPromotion fn v d >>= k) w =
      k () ((scheduleCanaryPromotion fn v d w).2) := by
  obtain ⟨w', hw⟩ := scheduleCanaryPromotion_never_fails fn v d w
  rw [run_bind, hw]

/-- Run equation of the canary-alias update when the alias exists and
the registry accepts the call. -/
theorem upsertAliasUpdateFirst_ok (fn name v : String) (w : World)
    (o : w.oracle w.calls = true) (hex : (aliasLookup w fn name).isSome = true) :
    upsertAliasUpdateFirst fn name v w =
      (.ok (), (recordCall w (.updateAlias fn name v)).setFnState fn
        { w.fnState fn with
            aliases := setAliasList ((w.fnState fn).aliases) name v }) := by
  simp [upsertAliasUpdateFirst, send_UpdateAlias, run_extCall, run_tryCatch, o, hex]

/-- The canary validation implies the plain name validation. -/
theorem validateFunctionNameE_of_canary (cfg : CanaryConfig)
    (h : validateCanaryConfigE cfg = .ok ()) :
    validateFunctionNameE cfg.functionName = .ok () := by
  unfold validateCanaryConfigE at h
  unfold validateFunctionNameE
  by_cases h1 : (cfg.functionName = "" ∨ ¬ (cfg.functionName.data.all isValidFnChar))
  · rw [if_pos h1] at h
    exact absurd h (by simp)
  · rw [if_neg h1] at h ⊢
    by_cases h2 : 64 < cfg.functionName.length
    · rw [if_pos h2] at h
      exact absurd h (by simp)
    · rw [if_neg h2]

/-- Run equation of a fully granted `deployWithVersioning` for the
configuration shape `canaryDeploy` builds (no config delta). -/
theorem deployWithVersioning_success_run (fn : String) (n : Nat) (d : String)
    (w : World)
    (hv : validateFunctionNameE fn = .ok ()) (h0 : ¬ n = 0)
    (hbig : ¬ 50 * 1024 * 1024 < n)
    (o0 : w.oracle w.calls = true) (o1 : w.oracle (w.calls + 1) = true) :
    deployWithVersioning ⟨fn, n, some d, none, none, none⟩ w =
      (.ok { success := true,
             version := some (toString ((w.fnState fn).versions.length + 1)),
             «alias» := none, error := none,
             metrics := some {
                 deploymentTime := w.time + w.tick w.calls + w.tick (w.calls + 1) - w.time,
                 functionSize := n } },
       recordCall
         ((recordCall (recordCall w (.updateFunctionCode fn n))
             (.publishVersion fn d)).setFnState fn
           { w.fnState fn with versions :=
               (w.fnState fn).versions ++
                 [toString ((w.fnState fn).versions.length + 1)] })
         (.putMetricData "AWS/Lambda/Deployment" fn
           (w.time + w.tick w.calls + w.tick (w.calls + 1) - w.time) n)) := by
  unfold deployWithVersioning validateFunctionName trackDeploymentMetrics
    send_UpdateFunctionCode send_UpdateFunctionConfiguration send_PublishVersion
    send_PutMetricData
  cases o2 : w.oracle (w.calls + 2) with
  | true =>
    simp [run_bind, run_now, run_tryCatch, run_ofExcept, run_pure, run_throwM,
      run_extCall, hv, h0, hbig, o0, o1, o2]
  | false =>
    simp [run_bind, run_now, run_tryCatch, run_ofExcept, run_pure, run_throwM,
      run_extCall, hv, h0, hbig, o0, o1, o2]

/-- The traffic write, reshaped as a pair equation. -/
theorem setupTrafficShifting_run_pair (fn live canary : String) (p : Rat) (w : World) :
    setupTrafficShifting fn live canary p w =
      (.ok (), (setupTrafficShifting fn live canary p w).2) := by
  rcases hx : setupTrafficShifting fn live canary p w with ⟨r, w2⟩
  have h := (setupTrafficShifting_run fn live canary p w).1
  rw [hx] at h
  have h2 : r = Except.ok () := h
  rw [h2]

/-- The scheduler call, reshaped as a pair equation. -/
theorem scheduleCanaryPromotion_run_pair (fn v : String) (d : Rat) (w : World) :
    scheduleCanaryPromotion fn v d w =
      (.ok (), (scheduleCanaryPromotion fn v d w).2) := by
  obtain ⟨w', hw⟩ := scheduleCanaryPromotion_never_fails fn v d w
  rw [hw]

/-- The granted canary-alias update, reshaped as a pair equation. -/
theorem upsertAliasUpdateFirst_run_pair (fn name v : String) (w : World)
    (o : w.oracle w.calls = true) (hex : (aliasLookup w fn name).isSome = true) :
    upsertAliasUpdateFirst fn name v w =
      (.ok (), (upsertAliasUpdateFirst fn name v w).2) := by
  rw [upsertAliasUpdateFirst_ok fn name v w o hex]

/-- C4: a canary deployment whose validation, publish, canary-alias
write and traffic write are all granted returns a successful
`DeploymentResult` with no error — whatever the promotion-scheduling
phase does: the world `w` is unconstrained from the scheduling calls
onwards, so a failing scheduler (or account lookup) cannot change the
returned success flag or error field. -/
theorem canaryDeploy_success_despite_scheduling_failure
    (cfg : CanaryConfig) (n : Nat) (w : World)
    (hv : validateCanaryConfigE cfg = .ok ())
    (h0 : ¬ n = 0) (hbig : ¬ 50 * 1024 * 1024 < n)
    (o0 : w.oracle w.calls = true) (o1 : w.oracle (w.calls + 1) = true)
    (hcan : (aliasLookup w cfg.functionName "canary").isSome = true)
    (o3 : w.oracle (w.calls + 3) = true)
    (o4 : w.oracle (w.calls + 4) = true) :
    ∃ m, (canaryDeploy cfg n w).1 =
      .ok { success := true,
            version := some (toString ((w.fnState cfg.functionName).versions.length + 1)),
            «alias» := some "canary", error := none, metrics := m } := by
  have hname := validateFunctionNameE_of_canary cfg hv
  have hdep := deployWithVersioning_success_run cfg.functionName n
    ("Canary deployment - " ++ isoTimestamp w.time) w hname h0 hbig o0 o1
  have hne := toString_nat_ne_empty ((w.fnState cfg.functionName).versions.length + 1)
  have o3' : w.oracle (w.calls + 1 + 1 + 1) = true := o3
  have o4' : w.oracle (w.calls + 1 + 1 + 1 + 1) = true := o4
  unfold canaryDeploy validateCanaryConfig
  simp [run_bind, run_tryCatch, run_ofExcept, run_now, run_pure, hv, hdep, hne]
  rw [upsertAliasUpdateFirst_run_pair _ _ _ _ (by simpa using o3)
    (by simpa [aliasLookup_setFnState] using hcan)]
  dsimp only
  rw [setupTrafficShifting_run_pair]
  dsimp only
  rw [scheduleCanaryPromotion_run_pair]
  exact ⟨_, rfl⟩

/-- A valid canary configuration. -/
def ccfgW : CanaryConfig :=
  { functionName := "my-function", trafficPercent := 30, duration := 5,
    evaluationCriteria := { errorRate := 0, latency := 100 } }

/-- World granting exactly the first five calls: publish, alias and
traffic writes succeed, every scheduling call fails. -/
def wSchedFail : World :=
  { store := fun g =>
      if g = "my-function" then { aliases := [("canary", "1")], versions := ["1"] }
      else {},
    oracle := fun k => decide (k < 5), tick := fun _ => 1 }

theorem canaryDeploy_success_despite_scheduling_failure_witness :
    ∃ m, (canaryDeploy ccfgW 10 wSchedFail).1 =
      .ok { success := true,
            version := some (toString ((wSchedFail.fnState ccfgW.functionName).versions.length + 1)),
            «alias» := some "canary", error := none, metrics := m } :=
  canaryDeploy_success_despite_scheduling_failure ccfgW 10 wSchedFail (by decide)
    (by decide) (by decide) (by decide) (by decide) (by decide) (by decide) (by decide)

/- ### Trace extensions of the canaryDeploy phases -/

theorem canaryDeployPhase_trace (fn : String) (n : Nat) (d : String) (w : World) :
    ∃ ext, ((deployWithVersioning ⟨fn, n, some d, none, none, none⟩ w).2).trace =
        w.trace ++ ext ∧ ∀ e ∈ ext, CanaryDeployPhaseEv fn e := by
  unfold deployWithVersioning validateFunctionName trackDeploymentMetrics
    send_UpdateFunctionCode send_UpdateFunctionConfiguration send_PublishVersion
    send_PutMetricData
  rcases hv : validateFunctionNameE fn with e | u
  · exact ⟨[], by simp [run_bind, run_now, run_tryCatch, run_ofExcept, run_pure,
      run_throwM, run_extCall, hv], by simp⟩
  by_cases h0 : n = 0
  · exact ⟨[], by simp [run_bind, run_now, run_tryCatch, run_ofExcept, run_pure,
      run_throwM, run_extCall, hv, h0], by simp⟩
  by_cases hbig : 50 * 1024 * 1024 < n
  · exact ⟨[], by simp [run_bind, run_now, run_tryCatch, run_ofExcept, run_pure,
      run_throwM, run_extCall, hv, h0, hbig], by simp⟩
  cases o0 : w.oracle w.calls with
  | false =>
    refine ⟨[.updateFunctionCode fn n], by simp [run_bind, run_now, run_tryCatch,
      run_ofExcept, run_pure, run_throwM, run_extCall, hv, h0, hbig, o0], ?_⟩
    intro e he
    rw [List.mem_singleton.mp he]
    exact Or.inl ⟨n, rfl⟩
  | true =>
    cases o1 : w.oracle (w.calls + 1) with
    | false =>
      refine ⟨[.updateFunctionCode fn n, .publishVersion fn d],
        by simp [run_bind, run_now, run_tryCatch, run_ofExcept, run_pure,
          run_throwM, run_extCall, hv, h0, hbig, o0, o1], ?_⟩
      intro e he
      simp only [List.mem_cons, List.mem_singleton, List.not_mem_nil, or_false] at he
      rcases he with rfl | rfl
      · exact Or.inl ⟨n, rfl⟩
      · exact Or.inr (Or.inl ⟨d, rfl⟩)
    | true =>
      cases o2 : w.oracle (w.calls + 2) with
      | false =>
        refine ⟨[.updateFunctionCode fn n, .publishVersion fn d,
          .putMetricData "AWS/Lambda/Deployment" fn
            (w.time + w.tick w.calls + w.tick (w.calls + 1) - w.time) n],
          by simp [run_bind, run_now, run_tryCatch, run_ofExcept, run_pure,
            run_throwM, run_extCall, hv, h0, hbig, o0, o1, o2], ?_⟩
        intro e he
        simp only [List.mem_cons, List.mem_singleton, List.not_mem_nil, or_false] at he
        rcases he with rfl | rfl | rfl
        · exact Or.inl ⟨n, rfl⟩
        · exact Or.inr (Or.inl ⟨d, rfl⟩)
        · exact Or.inr (Or.inr ⟨_, _, _, _, rfl⟩)
      | true =>
        refine ⟨[.updateFunctionCode fn n, .publishVersion fn d,
          .putMetricData "AWS/Lambda/Deployment" fn
            (w.time + w.tick w.calls + w.tick (w.calls + 1) - w.time) n],
          by simp [run_bind, run_now, run_tryCatch, run_ofExcept, run_pure,
            run_throwM, run_extCall, hv, h0, hbig, o0, o1, o2], ?_⟩
        intro e he
        simp only [List.mem_cons, List.mem_singleton, List.not_mem_nil, or_false] at he
        rcases he with rfl | rfl | rfl
        · exact Or.inl ⟨n, rfl⟩
        · exact Or.inr (Or.inl ⟨d, rfl⟩)
        · exact Or.inr (Or.inr ⟨_, _, _, _, rfl⟩)

theorem upsertAliasCanary_trace (fn v : String) (w : World) :
    ∃ ext, ((upsertAliasUpdateFirst fn "canary" v w).2).trace = w.trace ++ ext ∧
      ∀ e ∈ ext, CanaryAliasEv fn e := by
  unfold upsertAliasUpdateFirst send_UpdateAlias send_CreateAlias
  cases hal : aliasLookup w fn "canary" with
  | some x =>
    have hs : (aliasLookup w fn "canary").isSome = true := by rw [hal]; rfl
    cases o0 : w.oracle w.calls with
    | true =>
      refine ⟨[.updateAlias fn "canary" v],
        by simp [run_extCall, run_tryCatch, hs, o0], ?_⟩
      intro e he
      rw [List.mem_singleton.mp he]
      exact Or.inl ⟨v, rfl⟩
    | false =>
      refine ⟨[.updateAlias fn "canary" v, .createAlias fn "canary" v],
        by simp [run_extCall, run_tryCatch, hal, hs, o0], ?_⟩
      intro e he
      simp only [List.mem_cons, List.mem_singleton, List.not_mem_nil, or_false] at he
      rcases he with rfl | rfl
      · exact Or.inl ⟨v, rfl⟩
      · exact Or.inr ⟨v, rfl⟩
  | none =>
    cases o1 : w.oracle (w.calls + 1) with
    | true =>
      refine ⟨[.updateAlias fn "canary" v, .createAlias fn "canary" v],
        by simp [run_extCall, run_tryCatch, hal, o1], ?_⟩
      intro e he
      simp only [List.mem_cons, List.mem_singleton, List.not_mem_nil, or_false] at he
      rcases he with rfl | rfl
      · exact Or.inl ⟨v, rfl⟩
      · exact Or.inr ⟨v, rfl⟩
    | false =>
      refine ⟨[.updateAlias fn "canary" v, .createAlias fn "canary" v],
        by simp [run_extCall, run_tryCatch, hal, o1], ?_⟩
      intro e he
      simp only [List.mem_cons, List.mem_singleton, List.not_mem_nil, or_false] at he
      rcases he with rfl | rfl
      · exact Or.inl ⟨v, rfl⟩
      · exact Or.inr ⟨v, rfl⟩

theorem scheduleCanaryPromotion_trace (fn v : String) (d : Rat) (w : World) :
    ∃ ext, ((scheduleCanaryPromotion fn v d w).2).trace = w.trace ++ ext ∧
      ∀ e ∈ ext, SchedPhaseEv e := by
  unfold scheduleCanaryPromotion getAccountId send_GetCallerIdentity send_PutRule
    send_PutTargets readAccountId writeAccountId readRegion
  by_cases hc : w.accountId = "auto-detect"
  · cases os : w.oracle w.calls with
    | false =>
      refine ⟨[.getCallerIdentity], by simp [run_bind, run_now, run_tryCatch,
        run_ofExcept, run_pure, run_throwM, run_extCall, hc, os], ?_⟩
      intro e he
      rw [List.mem_singleton.mp he]
      exact Or.inl rfl
    | true =>
      by_cases hsa : w.stsAccount = ""
      · refine ⟨[.getCallerIdentity], by simp [run_bind, run_now, run_tryCatch,
          run_ofExcept, run_pure, run_throwM, run_extCall, hc, os, hsa], ?_⟩
        intro e he
        rw [List.mem_singleton.mp he]
        exact Or.inl rfl
      · cases or1 : w.oracle (w.calls + 1) with
        | false =>
          refine ⟨_, by simp [run_bind, run_now, run_tryCatch,
            run_ofExcept, run_pure, run_throwM, run_extCall, hc, os, hsa, or1]; rfl, ?_⟩
          intro e he
          simp only [List.mem_cons, List.mem_singleton, List.not_mem_nil, or_false] at he
          rcases he with rfl | rfl
          · exact Or.inl rfl
          · exact Or.inr (Or.inl ⟨_, _, rfl⟩)
        | true =>
          cases or2 : w.oracle (w.calls + 2) with
          | false =>
            refine ⟨_, by simp [run_bind, run_now, run_tryCatch,
              run_ofExcept, run_pure, run_throwM, run_extCall, hc, os, hsa, or1, or2]; rfl, ?_⟩
            intro e he
            simp only [List.mem_cons, List.mem_singleton, List.not_mem_nil, or_false] at he
            rcases he with rfl | rfl | rfl
            · exact Or.inl rfl
            · exact Or.inr (Or.inl ⟨_, _, rfl⟩)
            · exact Or.inr (Or.inr ⟨_, _, _, rfl⟩)
          | true =>
            refine ⟨_, by simp [run_bind, run_now, run_tryCatch,
              run_ofExcept, run_pure, run_throwM, run_extCall, hc, os, hsa, or1, or2]; rfl, ?_⟩
            intro e he
            simp only [List.mem_cons, List.mem_singleton, List.not_mem_nil, or_false] at he
            rcases he with rfl | rfl | rfl
            · exact Or.inl rfl
            · exact Or.inr (Or.inl ⟨_, _, rfl⟩)
            · exact Or.inr (Or.inr ⟨_, _, _, rfl⟩)
  · by_cases hacc : w.accountId = ""
    · refine ⟨[], by simp [run_bind, run_now, run_tryCatch,
        run_ofExcept, run_pure, run_throwM, run_extCall, hc, hacc], ?_⟩
      intro e he
      cases he
    · cases or1 : w.oracle w.calls with
      | false =>
        refine ⟨_, by simp [run_bind, run_now, run_tryCatch,
          run_ofExcept, run_pure, run_throwM, run_extCall, hc, hacc, or1]; rfl, ?_⟩
        intro e he
        rw [List.mem_singleton.mp he]
        exact Or.inr (Or.inl ⟨_, _, rfl⟩)
      | true =>
        cases or2 : w.oracle (w.calls + 1) with
        | false =>
          refine ⟨_, by simp [run_bind, run_now, run_tryCatch,
            run_ofExcept, run_pure, run_throwM, run_extCall, hc, hacc, or1, or2]; rfl, ?_⟩
          intro e he
          simp only [List.mem_cons, List.mem_singleton, List.not_mem_nil, or_false] at he
          rcases he with rfl | rfl
          · exact Or.inr (Or.inl ⟨_, _, rfl⟩)
          · exact Or.inr (Or.inr ⟨_, _, _, rfl⟩)
        | true =>
          refine ⟨_, by simp [run_bind, run_now, run_tryCatch,
            run_ofExcept, run_pure, run_throwM, run_extCall, hc, hacc, or1, or2]; rfl, ?_⟩
          intro e he
          simp only [List.mem_cons, List.mem_singleton, List.not_mem_nil, or_false] at he
          rcases he with rfl | rfl
          · exact Or.inr (Or.inl ⟨_, _, rfl⟩)
          · exact Or.inr (Or.inr ⟨_, _, _, rfl⟩)

/-- Every run of `canaryDeploy` splits its trace into four ordered
segments: deploy-phase events, canary-alias writes, the traffic
write, scheduling events; a successful run performs exactly one
traffic write carrying the whole weight table. -/
theorem canaryDeploy_decomposition (cfg : CanaryConfig) (n : Nat) (w : World) :
    ∃ a b c d2,
      ((canaryDeploy cfg n w).2).trace = w.trace ++ (a ++ (b ++ (c ++ d2))) ∧
      (∀ e ∈ a, CanaryDeployPhaseEv cfg.functionName e) ∧
      (∀ e ∈ b, CanaryAliasEv cfg.functionName e) ∧
      (∀ e ∈ c, TrafficWriteEv cfg.functionName cfg.trafficPercent e) ∧
      (∀ e ∈ d2, SchedPhaseEv e) ∧
      (∀ r, (canaryDeploy cfg n w).1 = .ok r → r.success = true →
        c = [.updateFunctionConfiguration cfg.functionName
          (some (trafficEnvVars "canary" "live" cfg.trafficPercent)) none none]) := by
  unfold canaryDeploy validateCanaryConfig
  rcases hv : validateCanaryConfigE cfg with e | u
  · refine ⟨[], [], [], [], ?_, by simp, by simp, by simp, by simp, ?_⟩
    · simp [run_bind, run_tryCatch, run_ofExcept, run_now, run_pure, hv]
    · intro r hr hs
      simp [run_bind, run_tryCatch, run_ofExcept, run_now, run_pure, hv] at hr
      rw [← hr] at hs
      simp at hs
  · obtain ⟨a, ha, hpa⟩ := canaryDeployPhase_trace cfg.functionName n
      ("Canary deployment - " ++ isoTimestamp w.time) w
    rcases hd : deployWithVersioning
      ⟨cfg.functionName, n, some ("Canary deployment - " ++ isoTimestamp w.time),
       none, none, none⟩ w with ⟨r1, w1⟩
    replace ha : w1.trace = w.trace ++ a := by rw [hd] at ha; exact ha
    cases r1 with
    | error e1 =>
      refine ⟨a, [], [], [], ?_, hpa, by simp, by simp, by simp, ?_⟩
      · simp [run_bind, run_tryCatch, run_ofExcept, run_now, run_pure, hv, hd, ha]
      · intro r hr hs
        simp [run_bind, run_tryCatch, run_ofExcept, run_now, run_pure, hv, hd] at hr
        rw [← hr] at hs
        simp at hs
    | ok dep =>
      have hcontract := deployWithVersioning_contract
        ⟨cfg.functionName, n, some ("Canary deployment - " ++ isoTimestamp w.time),
         none, none, none⟩ w
      rw [hd] at hcontract
      unfold DeployContract at hcontract
      obtain ⟨r0, hr0, hsucc0, hfail0⟩ := hcontract
      have hdep0 : dep = r0 := by simpa using hr0
      subst hdep0
      by_cases hcond : (dep.success = false ∨ dep.version.getD "" = "")
      · refine ⟨a, [], [], [], ?_, hpa, by simp, by simp, by simp, ?_⟩
        · simp [run_bind, run_tryCatch, run_ofExcept, run_now, run_pure, hv, hd,
            hcond, ha]
        · intro r hr hs
          simp [run_bind, run_tryCatch, run_ofExcept, run_now, run_pure, hv, hd,
            hcond] at hr
          rw [← hr] at hs
          rcases hcond with hc | hc
          · rw [hc] at hs
            cases hs
          · obtain ⟨-, -, ⟨k, hk⟩, -⟩ := hsucc0 hs
            rw [hk] at hc
            simp at hc
            exact (toString_nat_ne_empty (k + 1) hc).elim
      · obtain ⟨b, hb, hpb⟩ := upsertAliasCanary_trace cfg.functionName
          (dep.version.getD "") w1
        rcases hu : upsertAliasUpdateFirst cfg.functionName "canary"
          (dep.version.getD "") w1 with ⟨r2, w2⟩
        replace hb : w2.trace = w1.trace ++ b := by rw [hu] at hb; exact hb
        cases r2 with
        | error e2 =>
          refine ⟨a, b, [], [], ?_, hpa, hpb, by simp, by simp, ?_⟩
          · simp [run_bind, run_tryCatch, run_ofExcept, run_now, run_pure, hv, hd,
              hcond, hu, hb, ha, List.append_assoc]
          · intro r hr hs
            simp [run_bind, run_tryCatch, run_ofExcept, run_now, run_pure, hv, hd,
              hcond, hu] at hr
            rw [← hr] at hs
            cases hs
        | ok u2 =>
          have hset := setupTrafficShifting_run cfg.functionName "live" "canary"
            cfg.trafficPercent w2
          rcases hs3 : setupTrafficShifting cfg.functionName "live" "canary"
            cfg.trafficPercent w2 with ⟨r3, w3⟩
          rw [hs3] at hset
          have hr3 : r3 = Except.ok () := hset.1
          have hset2 : w3.trace = w2.trace ++
            [.updateFunctionConfiguration cfg.functionName
              (some (trafficEnvVars "canary" "live" cfg.trafficPercent)) none none] :=
            hset.2
          subst hr3
          obtain ⟨d2, hd2, hpd⟩ := scheduleCanaryPromotion_trace cfg.functionName
            (dep.version.getD "") cfg.duration w3
          rcases hsc : scheduleCanaryPromotion cfg.functionName
            (dep.version.getD "") cfg.duration w3 with ⟨r4, w4⟩
          replace hd2 : w4.trace = w3.trace ++ d2 := by rw [hsc] at hd2; exact hd2
          cases r4 with
          | ok u4 =>
            refine ⟨a, b, [.updateFunctionConfiguration cfg.functionName
              (some (trafficEnvVars "canary" "live" cfg.trafficPercent)) none none],
              d2, ?_, hpa, hpb, ?_, hpd, ?_⟩
            · simp [run_bind, run_tryCatch, run_ofExcept, run_now, run_pure, hv, hd,
                hcond, hu, hs3, hsc]
              rw [hd2, hset2, hb, ha]
              simp [List.append_assoc]
            · intro e he
              rw [List.mem_singleton.mp he]
              rfl
            · intro r hr hs
              rfl
          | error e4 =>
            refine ⟨a, b, [.updateFunctionConfiguration cfg.functionName
              (some (trafficEnvVars "canary" "live" cfg.trafficPercent)) none none],
              d2, ?_, hpa, hpb, ?_, hpd, ?_⟩
            · simp [run_bind, run_tryCatch, run_ofExcept, run_now, run_pure, hv, hd,
                hcond, hu, hs3, hsc]
              rw [hd2, hset2, hb, ha]
              simp [List.append_assoc]
            · intro e he
              rw [List.mem_singleton.mp he]
              rfl
            · intro r hr hs
              rfl

/-- In `l`, every event satisfying `P` occurs at a strictly smaller
index than every event satisfying `Q`. -/
def allBefore (P Q : Event → Prop) (l : List Event) : Prop :=
  ∀ i j, ∀ hi : i < l.length, ∀ hj : j < l.length,
    P (l.get ⟨i, hi⟩) → Q (l.get ⟨j, hj⟩) → i < j

theorem allBefore_of_append (P Q : Event → Prop) (x y : List Event)
    (hx : ∀ e ∈ y, ¬P e) (hy : ∀ e ∈ x, ¬Q e) :
    allBefore P Q (x ++ y) := by
  intro i j hi hj hip hjq
  have hix : i < x.length := by
    by_contra hni
    push_neg at hni
    have hiy : i - x.length < y.length := by
      have := hi
      simp only [List.length_append] at this
      omega
    have h2 : (x ++ y).get ⟨i, hi⟩ = y.get ⟨i - x.length, hiy⟩ := by
      simp only [List.get_eq_getElem]
      exact List.getElem_append_right hni
    rw [h2] at hip
    exact hx _ (List.get_mem y _ hiy) hip
  have hjx : x.length ≤ j := by
    by_contra hnj
    push_neg at hnj
    have h2 : (x ++ y).get ⟨j, hj⟩ = x.get ⟨j, hnj⟩ := by
      simp only [List.get_eq_getElem]
      exact List.getElem_append_left hnj
    rw [h2] at hjq
    exact hy _ (List.get_mem x _ hnj) hjq
  omega

theorem configWrite_false_of_deployPhase (fn : String) (e : Event)
    (h : CanaryDeployPhaseEv fn e) : isConfigWrite e = false := by
  simp only [CanaryDeployPhaseEv] at h
  rcases h with ⟨s, rfl⟩ | ⟨d, rfl⟩ | ⟨p2, q2, r2, s2, rfl⟩ <;> rfl

theorem configWrite_false_of_alias (fn : String) (e : Event)
    (h : CanaryAliasEv fn e) : isConfigWrite e = false := by
  simp only [CanaryAliasEv] at h
  rcases h with ⟨v, rfl⟩ | ⟨v, rfl⟩ <;> rfl

theorem configWrite_false_of_sched (e : Event)
    (h : SchedPhaseEv e) : isConfigWrite e = false := by
  simp only [SchedPhaseEv] at h
  rcases h with rfl | ⟨p2, q2, rfl⟩ | ⟨p2, q2, r2, rfl⟩ <;> rfl

/-- C6: the traffic-weight table is canaryPercent/100 against
(100-canaryPercent)/100, summing exactly to 1 (30 gives 0.30/0.70), and
canaryDeploy persists it in a single configuration update: every
configuration write in the trace extension is the one traffic write,
and a successful run performs exactly one. -/
theorem canaryDeploy_traffic_weights (cfg : CanaryConfig) (n : Nat) (w : World)
    (h1 : (1 : Rat) ≤ cfg.trafficPercent) (h2 : cfg.trafficPercent ≤ 100) :
    routingWeightsFor cfg.trafficPercent =
      ⟨cfg.trafficPercent / 100, (100 - cfg.trafficPercent) / 100⟩ ∧
    (routingWeightsFor cfg.trafficPercent).canary +
      (routingWeightsFor cfg.trafficPercent).live = 1 ∧
    routingWeightsFor 30 = ⟨3 / 10, 7 / 10⟩ ∧
    (∃ ext, ((canaryDeploy cfg n w).2).trace = w.trace ++ ext ∧
      (∀ e ∈ ext, isConfigWrite e = true →
        e = .updateFunctionConfiguration cfg.functionName
          (some (trafficEnvVars "canary" "live" cfg.trafficPercent)) none none) ∧
      (∀ r, (canaryDeploy cfg n w).1 = .ok r → r.success = true →
        ext.filter isConfigWrite = [.updateFunctionConfiguration cfg.functionName
          (some (trafficEnvVars "canary" "live" cfg.trafficPercent)) none none])) := by
  refine ⟨rfl, ?_, ?_, ?_⟩
  · show cfg.trafficPercent / 100 + (100 - cfg.trafficPercent) / 100 = 1
    rw [div_add_div_same,
      show cfg.trafficPercent + (100 - cfg.trafficPercent) = (100 : Rat) by ring]
    norm_num
  · norm_num [routingWeightsFor, RoutingWeights.mk.injEq]
  · obtain ⟨a, b, c, d2, htr, hpa, hpb, hpc, hpd, hone⟩ :=
      canaryDeploy_decomposition cfg n w
    refine ⟨a ++ (b ++ (c ++ d2)), htr, ?_, ?_⟩
    · intro e he hcw
      rcases List.mem_append.mp he with h1a | h1a
      · rw [configWrite_false_of_deployPhase _ _ (hpa e h1a)] at hcw
        exact Bool.noConfusion hcw
      · rcases List.mem_append.mp h1a with h2a | h2a
        · rw [configWrite_false_of_alias _ _ (hpb e h2a)] at hcw
          exact Bool.noConfusion hcw
        · rcases List.mem_append.mp h2a with h3a | h3a
          · exact hpc e h3a
          · rw [configWrite_false_of_sched _ (hpd e h3a)] at hcw
            exact Bool.noConfusion hcw
    · intro r hr hs
      have hc := hone r hr hs
      subst hc
      have hfa : a.filter isConfigWrite = [] := by
        rw [List.filter_eq_nil_iff]
        intro e he h
        rw [configWrite_false_of_deployPhase _ _ (hpa e he)] at h
        exact Bool.noConfusion h
      have hfb : b.filter isConfigWrite = [] := by
        rw [List.filter_eq_nil_iff]
        intro e he h
        rw [configWrite_false_of_alias _ _ (hpb e he)] at h
        exact Bool.noConfusion h
      have hfd : d2.filter isConfigWrite = [] := by
        rw [List.filter_eq_nil_iff]
        intro e he h
        rw [configWrite_false_of_sched _ (hpd e he)] at h
        exact Bool.noConfusion h
      simp [List.filter_append, hfa, hfb, hfd, List.filter, isConfigWrite]

theorem canaryDeploy_traffic_weights_witness :
    ((1 : Rat) ≤ ccfgW.trafficPercent ∧ ccfgW.trafficPercent ≤ 100) ∧
    (routingWeightsFor ccfgW.trafficPercent =
        ⟨ccfgW.trafficPercent / 100, (100 - ccfgW.trafficPercent) / 100⟩ ∧
      (routingWeightsFor ccfgW.trafficPercent).canary +
        (routingWeightsFor ccfgW.trafficPercent).live = 1 ∧
      routingWeightsFor 30 = ⟨3 / 10, 7 / 10⟩ ∧
      (∃ ext, ((canaryDeploy ccfgW 10 wSchedFail).2).trace = wSchedFail.trace ++ ext ∧
        (∀ e ∈ ext, isConfigWrite e = true →
          e = .updateFunctionConfiguration ccfgW.functionName
            (some (trafficEnvVars "canary" "live" ccfgW.trafficPercent)) none none) ∧
        (∀ r, (canaryDeploy ccfgW 10 wSchedFail).1 = .ok r → r.success = true →
          ext.filter isConfigWrite = [.updateFunctionConfiguration ccfgW.functionName
            (some (trafficEnvVars "canary" "live" ccfgW.trafficPercent)) none none]))) :=
  ⟨⟨by norm_num [ccfgW], by norm_num [ccfgW]⟩,
   canaryDeploy_traffic_weights ccfgW 10 wSchedFail
     (by norm_num [ccfgW]) (by norm_num [ccfgW])⟩

/-- C8: within one canaryDeploy run the effect trace is phase-ordered:
every version publish precedes every canary-alias write, which precedes
every configuration (traffic-weight) write, which precedes every
promotion-scheduling call. -/
theorem canaryDeploy_effect_order (cfg : CanaryConfig) (n : Nat) (w : World) :
    ∃ ext, ((canaryDeploy cfg n w).2).trace = w.trace ++ ext ∧
      allBefore isPublishEv (CanaryAliasEv cfg.functionName) ext ∧
      allBefore (CanaryAliasEv cfg.functionName) isTrafficCfgEv ext ∧
      allBefore isTrafficCfgEv SchedPhaseEv ext := by
  obtain ⟨a, b, c, d2, htr, hpa, hpb, hpc, hpd, -⟩ :=
    canaryDeploy_decomposition cfg n w
  refine ⟨a ++ (b ++ (c ++ d2)), htr, ?_, ?_, ?_⟩
  · refine allBefore_of_append _ _ a (b ++ (c ++ d2)) ?_ ?_
    · intro e he hp
      simp only [isPublishEv] at hp
      obtain ⟨f, d, rfl⟩ := hp
      rcases List.mem_append.mp he with h1 | h1
      · have hx := hpb _ h1
        simp only [CanaryAliasEv] at hx
        rcases hx with ⟨v, hx⟩ | ⟨v, hx⟩ <;> simp at hx
      · rcases List.mem_append.mp h1 with h2 | h2
        · have hx := hpc _ h2
          simp only [TrafficWriteEv] at hx
          simp at hx
        · have hx := hpd _ h2
          simp only [SchedPhaseEv] at hx
          rcases hx with hx | ⟨p2, q2, hx⟩ | ⟨p2, q2, r2, hx⟩ <;> simp at hx
    · intro e he hq
      simp only [CanaryAliasEv] at hq
      have hx := hpa _ he
      simp only [CanaryDeployPhaseEv] at hx
      rcases hx with ⟨s, rfl⟩ | ⟨d, rfl⟩ | ⟨p2, q2, r2, s2, rfl⟩ <;>
        rcases hq with ⟨v, hv2⟩ | ⟨v, hv2⟩ <;> simp at hv2
  · rw [show a ++ (b ++ (c ++ d2)) = (a ++ b) ++ (c ++ d2) by
      simp [List.append_assoc]]
    refine allBefore_of_append _ _ _ _ ?_ ?_
    · intro e he hp
      simp only [CanaryAliasEv] at hp
      rcases List.mem_append.mp he with h2 | h2
      · have hx := hpc _ h2
        simp only [TrafficWriteEv] at hx
        subst hx
        rcases hp with ⟨v, hv2⟩ | ⟨v, hv2⟩ <;> simp at hv2
      · have hx := hpd _ h2
        simp only [SchedPhaseEv] at hx
        rcases hx with rfl | ⟨p2, q2, rfl⟩ | ⟨p2, q2, r2, rfl⟩ <;>
          rcases hp with ⟨v, hv2⟩ | ⟨v, hv2⟩ <;> simp at hv2
    · intro e he hq
      simp only [isTrafficCfgEv] at hq
      obtain ⟨f, env, t, m, rfl⟩ := hq
      rcases List.mem_append.mp he with h2 | h2
      · have hx := hpa _ h2
        simp only [CanaryDeployPhaseEv] at hx
        rcases hx with ⟨s, hx⟩ | ⟨d, hx⟩ | ⟨p2, q2, r2, s2, hx⟩ <;> simp at hx
      · have hx := hpb _ h2
        simp only [CanaryAliasEv] at hx
        rcases hx with ⟨v, hx⟩ | ⟨v, hx⟩ <;> simp at hx
  · rw [show a ++ (b ++ (c ++ d2)) = (a ++ (b ++ c)) ++ d2 by
      simp [List.append_assoc]]
    refine allBefore_of_append _ _ _ _ ?_ ?_
    · intro e he hp
      simp only [isTrafficCfgEv] at hp
      obtain ⟨f, env, t, m, rfl⟩ := hp
      have hx := hpd _ he
      simp only [SchedPhaseEv] at hx
      rcases hx with hx | ⟨p2, q2, hx⟩ | ⟨p2, q2, r2, hx⟩ <;> simp at hx
    · intro e he hq
      simp only [SchedPhaseEv] at hq
      rcases List.mem_append.mp he with h2 | h2
      · have hx := hpa _ h2
        simp only [CanaryDeployPhaseEv] at hx
        rcases hx with ⟨s, rfl⟩ | ⟨d, rfl⟩ | ⟨p2, q2, r2, s2, rfl⟩ <;>
          rcases hq with hx2 | ⟨x2, y2, hx2⟩ | ⟨x2, y2, z2, hx2⟩ <;> simp at hx2
      · rcases List.mem_append.mp h2 with h3 | h3
        · have hx := hpb _ h3
          simp only [CanaryAliasEv] at hx
          rcases hx with ⟨v, rfl⟩ | ⟨v, rfl⟩ <;>
            rcases hq with hx2 | ⟨x2, y2, hx2⟩ | ⟨x2, y2, z2, hx2⟩ <;> simp at hx2
        · have hx := hpc _ h3
          simp only [TrafficWriteEv] at hx
          subst hx
          rcases hq with hx2 | ⟨x2, y2, hx2⟩ | ⟨x2, y2, z2, hx2⟩ <;> simp at hx2
